import Mathlib

/-!
Shallow embedding of the hospital scheduling core
(`Hospital_Ai_schedulers` / `Hospital_AI_System_Production`) in Lean 4.

Python floats are modelled by `ℚ`, Python ints by `ℤ`/`ℕ`, Python dicts by
insertion-ordered association lists, `datetime` values by a (day, minute)
pair (day 0 is a Monday, matching `date.weekday()` with Monday = 0).
Mutable objects shared between containers (slots, waitlist entries) are
modelled by an explicit store of values addressed by index, so that Python
aliasing is represented faithfully.
-/

namespace Hosp

/-- Python `int(x)` applied to a float: truncation toward zero. -/
def pyTrunc (q : ℚ) : ℤ := if 0 ≤ q then ⌊q⌋ else ⌈q⌉

/-- A Python `datetime`: calendar day number plus minute of day.
Day 0 is a Monday, so `weekday = day mod 7` matches `date.weekday()`. -/
structure PyDateTime where
  day : ℤ
  minute : ℤ
deriving DecidableEq, Repr, Inhabited

namespace PyDateTime

/-- `datetime.hour` (minutes of day stay in `[0, 1440)` for every value the
code reads an hour from, so plain division is exact). -/
def hour (t : PyDateTime) : ℤ := t.minute / 60

/-- Python `weekday()`: 0 = Monday … 6 = Sunday. -/
def weekday (t : PyDateTime) : ℤ := Int.emod t.day 7

/-- Lexicographic `datetime` comparison `a <= b`. -/
def le (a b : PyDateTime) : Prop :=
  a.day < b.day ∨ (a.day = b.day ∧ a.minute ≤ b.minute)

instance : DecidablePred fun p : PyDateTime × PyDateTime => le p.1 p.2 :=
  fun _ => by unfold le; infer_instance

instance (a b : PyDateTime) : Decidable (le a b) := by unfold le; infer_instance

/-- `(a - b).days` for two datetimes: the timedelta day count, which Python
floors (`Int.fdiv` is floor division). -/
def diffDays (a b : PyDateTime) : ℤ :=
  Int.fdiv ((a.day * 1440 + a.minute) - (b.day * 1440 + b.minute)) 1440

end PyDateTime

/-- First-match lookup in an insertion-ordered association list
(Python dict read `d[k]` / `d.get(k)`). -/
def lookupA {β : Type} : List (String × β) → String → Option β
  | [], _ => none
  | (k', v') :: t, k => if k' = k then some v' else lookupA t k

/-- Python dict write `d[k] = v`: replace in place if the key exists,
else append. -/
def insertA {β : Type} : List (String × β) → String → β → List (String × β)
  | [], k, v => [(k, v)]
  | (k', v') :: t, k, v =>
    if k' = k then (k, v) :: t else (k', v') :: insertA t k v

/-- Python dict delete `del d[k]` / `d.pop(k, None)`. -/
def eraseA {β : Type} : List (String × β) → String → List (String × β)
  | [], _ => []
  | (k', v') :: t, k => if k' = k then t else (k', v') :: eraseA t k

/-- Membership test `k in d`. -/
def memA {β : Type} (d : List (String × β)) (k : String) : Bool :=
  (lookupA d k).isSome

/-! ## RiskAssessor (`Hospital_Ai_schedulers/risk_assessor.py`) -/

/-- `RiskLevel` enum. -/
inductive RiskLevel
  | low
  | medium
  | high
deriving DecidableEq, Repr, Inhabited

/-- `RiskLevel.value` strings. -/
def RiskLevel.value : RiskLevel → String
  | .low => "low"
  | .medium => "medium"
  | .high => "high"

/-- Numeric rank realising the ordering LOW < MEDIUM < HIGH. -/
def RiskLevel.rank : RiskLevel → ℕ
  | .low => 0
  | .medium => 1
  | .high => 2

/-- `RiskAssessor.__init__` configuration (defaults 0.3, 0.6, 0.8; the
rational literals are written with the raw constructor so that they reduce
inside the kernel, see `default_thresholds_eq`). -/
structure RiskAssessor where
  low_threshold : ℚ := ⟨3, 10, by decide, by decide⟩
  medium_threshold : ℚ := ⟨3, 5, by decide, by decide⟩
  high_threshold : ℚ := ⟨4, 5, by decide, by decide⟩
deriving DecidableEq, Repr, Inhabited

/-- The default-constructed `RiskAssessor()`. -/
def defaultRiskAssessor : RiskAssessor := {}

/-- `RiskAssessor.assess_risk`. -/
def assessRisk (ra : RiskAssessor) (no_show_probability : ℚ) : RiskLevel :=
  if no_show_probability ≤ ra.low_threshold then .low
  else if no_show_probability ≤ ra.medium_threshold then .medium
  else if no_show_probability ≤ ra.high_threshold then .high
  else .high

/-- The scheduling-strategy descriptor dict produced by
`RiskAssessor.get_scheduling_strategy`. -/
structure Strategy where
  risk_level : String
  action : String
  buffer_time : ℤ
  requires_confirmation : Bool
  waitlist_priority : ℤ
  interventions : List String
  strategy_note : String
deriving DecidableEq, Repr, Inhabited

/-- `RiskAssessor._low_risk_strategy`. -/
def lowRiskStrategy (slot_available : Bool) (slot_capacity : ℤ) :
    String × ℤ × Bool × ℤ × List String × String :=
  if slot_available ∧ slot_capacity > 0 then
    ("confirm", 0, false, 0, ["standard_reminder"],
      "Low risk patient - standard scheduling")
  else
    ("reschedule", 0, false, 1, ["standard_reminder"],
      "Low risk patient - reschedule to available slot")

/-- `RiskAssessor._medium_risk_strategy`. -/
def mediumRiskStrategy (slot_available : Bool) (slot_capacity : ℤ) :
    String × ℤ × Bool × ℤ × List String × String :=
  if slot_available ∧ slot_capacity > 0 then
    ("confirm_with_buffer", 15, true, 2, ["enhanced_reminder", "confirmation_call"],
      "Medium risk patient - confirm with buffer time and follow-up")
  else
    ("reschedule_optimal", 0, true, 3, ["enhanced_reminder", "confirmation_call"],
      "Medium risk patient - find optimal slot with confirmation")

/-- `RiskAssessor._high_risk_strategy`. -/
def highRiskStrategy (slot_available : Bool) (slot_capacity : ℤ) :
    String × ℤ × Bool × ℤ × List String × String :=
  if slot_available ∧ slot_capacity > 0 then
    ("confirm_with_extended_buffer", 30, true, 4,
      ["urgent_reminder", "confirmation_call", "alternative_times"],
      "High risk patient - extended buffer and intensive follow-up")
  else
    ("waitlist_high_priority", 0, true, 5,
      ["urgent_reminder", "confirmation_call", "alternative_times"],
      "High risk patient - high priority waitlist placement")

/-- `RiskAssessor.get_scheduling_strategy`. -/
def getSchedulingStrategy (risk_level : RiskLevel) (slot_available : Bool)
    (slot_capacity : ℤ) : Strategy :=
  let f := match risk_level with
    | .low => lowRiskStrategy
    | .medium => mediumRiskStrategy
    | .high => highRiskStrategy
  let r := f slot_available slot_capacity
  { risk_level := risk_level.value
    action := r.1
    buffer_time := r.2.1
    requires_confirmation := r.2.2.1
    waitlist_priority := r.2.2.2.1
    interventions := r.2.2.2.2.1
    strategy_note := r.2.2.2.2.2 }

/-- The `risk_priority` dict {LOW: 1, MEDIUM: 3, HIGH: 5} used by both
`RiskAssessor.calculate_waitlist_priority` and
`WaitlistEntry._calculate_priority_score`. -/
def riskBasePriority : RiskLevel → ℤ
  | .low => 1
  | .medium => 3
  | .high => 5

/-- `RiskAssessor.calculate_waitlist_priority`.  The Python code computes
`int(base_priority * urgency_multiplier + waiting_bonus)` over floats and
clamps to `[1, 10]`; for the rational values reachable here the float
truncation agrees with exact truncation. -/
def calculateWaitlistPriority (ra : RiskAssessor) (no_show_probability : ℚ)
    (urgency_score : ℤ) (waiting_time : ℤ) : ℤ :=
  let risk_level := assessRisk ra no_show_probability
  let base_priority : ℤ := riskBasePriority risk_level
  let urgency_multiplier : ℚ := (urgency_score : ℚ) / 5
  let waiting_bonus : ℚ := (min waiting_time 7 : ℤ) * (1/2 : ℚ)
  let priority_score := pyTrunc ((base_priority : ℚ) * urgency_multiplier + waiting_bonus)
  max 1 (min priority_score 10)

/-! ## SlotOptimizer (`Hospital_AI_System_Production/ai_agent_core/slot_optimizer.py`) -/

/-- `DoctorSlot` object state. -/
structure DoctorSlot where
  doctor_id : String
  start_time : PyDateTime
  end_time : PyDateTime
  max_capacity : ℤ
  current_capacity : ℤ
  slot_type : String
  patients : List String
  buffer_time : ℤ
deriving DecidableEq, Repr, Inhabited

/-- `DoctorSlot.__init__` (capacity defaults to 1, type to consultation). -/
def mkDoctorSlot (doctor_id : String) (start_time end_time : PyDateTime)
    (max_capacity : ℤ) : DoctorSlot :=
  { doctor_id := doctor_id
    start_time := start_time
    end_time := end_time
    max_capacity := max_capacity
    current_capacity := 0
    slot_type := "consultation"
    patients := []
    buffer_time := 0 }

namespace DoctorSlot

/-- `DoctorSlot.add_patient`: returns the updated slot and the success flag. -/
def addPatient (s : DoctorSlot) (patient_id : String) (buffer_time : ℤ) :
    DoctorSlot × Bool :=
  if s.current_capacity < s.max_capacity then
    ({ s with
        patients := s.patients ++ [patient_id]
        current_capacity := s.current_capacity + 1
        buffer_time := max s.buffer_time buffer_time }, true)
  else (s, false)

/-- `DoctorSlot.remove_patient`: Python `list.remove` drops the first
occurrence; the count is decremented only when the patient was present. -/
def removePatient (s : DoctorSlot) (patient_id : String) : DoctorSlot × Bool :=
  if patient_id ∈ s.patients then
    ({ s with
        patients := s.patients.erase patient_id
        current_capacity := s.current_capacity - 1 }, true)
  else (s, false)

/-- `DoctorSlot.is_available`. -/
def isAvailable (s : DoctorSlot) : Bool := s.current_capacity < s.max_capacity

/-- `DoctorSlot.get_available_capacity`. -/
def availableCapacity (s : DoctorSlot) : ℤ := s.max_capacity - s.current_capacity

end DoctorSlot

/-- `SlotOptimizer` state.  Slot objects live in the store `slots` and are
addressed by index, because Python shares one mutable `DoctorSlot` object
between `doctor_slots` and `slot_assignments`. -/
structure SlotOptimizer where
  slots : List DoctorSlot
  doctor_slots : List (String × List ℕ)
  slot_assignments : List (String × ℕ)
deriving DecidableEq, Repr, Inhabited

namespace SlotOptimizer

/-- `SlotOptimizer.__init__`. -/
def init : SlotOptimizer := ⟨[], [], []⟩

/-- Read a slot object from the store (indices used by the embedding are
always in range). -/
def slotAt (st : SlotOptimizer) (i : ℕ) : DoctorSlot := st.slots.getD i default

/-- Overwrite a slot object in the store. -/
def setSlot (st : SlotOptimizer) (i : ℕ) (s : DoctorSlot) : SlotOptimizer :=
  { st with slots := st.slots.set i s }

/-- One day's inner `while current_slot_start < end_time` loop of
`add_doctor_schedule`.  The `0 < dur` conjunct reflects that the Python
loop never terminates for a non-positive `slot_duration`. -/
def daySlots (doctor_id : String) (day : ℤ) (t endMin dur : ℕ) (cap : ℤ) :
    List DoctorSlot :=
  if t < endMin ∧ 0 < dur then
    mkDoctorSlot doctor_id ⟨day, t⟩ ⟨day, t + dur⟩ cap ::
      daySlots doctor_id day (t + dur) endMin dur cap
  else []
termination_by endMin - t
decreasing_by omega

/-- The outer `while current_date <= end_date` loop of `add_doctor_schedule`:
weekdays get a tiling of slots, weekend days none.  `d` carries the current
day, `m` the (constant) minute-of-day of `start_date`. -/
def scheduleDays (doctor_id : String) (d : ℤ) (m : ℤ) (endDate : PyDateTime)
    (startHour endHour dur : ℕ) (cap : ℤ) : List DoctorSlot :=
  if PyDateTime.le ⟨d, m⟩ endDate then
    (if Int.emod d 7 < 5 then
      daySlots doctor_id d (startHour * 60) (endHour * 60) dur cap
    else []) ++ scheduleDays doctor_id (d + 1) m endDate startHour endHour dur cap
  else []
termination_by (endDate.day + 1 - d).toNat
decreasing_by
  simp only [PyDateTime.le] at *
  omega

/-- `SlotOptimizer.add_doctor_schedule`: ensures the doctor key exists, then
appends the generated slots.  In the store model the new slot objects are
appended to the store and their indices to the doctor's list. -/
def addDoctorSchedule (st : SlotOptimizer) (doctor_id : String)
    (start_date end_date : PyDateTime) (startHour endHour dur : ℕ) (cap : ℤ) :
    SlotOptimizer :=
  let ds := if memA st.doctor_slots doctor_id then st.doctor_slots
    else insertA st.doctor_slots doctor_id []
  let newSlots := scheduleDays doctor_id start_date.day start_date.minute
    end_date startHour endHour dur cap
  let base := st.slots.length
  let newIds := (List.range newSlots.length).map (base + ·)
  let old := (lookupA ds doctor_id).getD []
  { slots := st.slots ++ newSlots
    doctor_slots := insertA ds doctor_id (old ++ newIds)
    slot_assignments := st.slot_assignments }

/-- `SlotOptimizer._calculate_slot_score`. -/
def calcSlotScore (slot : DoctorSlot) (preferred_date : Option PyDateTime)
    (preferred_time : Option String) (risk_level : RiskLevel)
    (urgency_score : ℤ) : ℚ :=
  let s1 : ℚ := match preferred_date with
    | some d => ((max 0 (10 - |slot.start_time.day - d.day|) : ℤ) : ℚ)
    | none => 0
  let s2 : ℚ := match preferred_time with
    | some t =>
      let hour := slot.start_time.hour
      if t = "morning" ∧ 9 ≤ hour ∧ hour ≤ 12 then 5
      else if t = "afternoon" ∧ 13 ≤ hour ∧ hour ≤ 17 then 5
      else if t = "evening" ∧ 18 ≤ hour ∧ hour ≤ 20 then 5
      else 0
    | none => 0
  let s3 : ℚ := match risk_level with
    | .high => (slot.buffer_time : ℚ) * (1/10)
    | .medium => (slot.buffer_time : ℚ) * (1/20)
    | .low => 0
  s1 + s2 + s3 + (urgency_score : ℚ) * 2 + (slot.availableCapacity : ℚ) * (1/2)

/-- The `(slot, score)` candidate list collected by `find_optimal_slot`, in
scan order: doctor-dict insertion order, then slot-list order. -/
def candidateSlots (st : SlotOptimizer) (preferred_doctor : Option String)
    (preferred_date : Option PyDateTime) (preferred_time : Option String)
    (risk_level : RiskLevel) (urgency_score : ℤ) : List (ℕ × ℚ) :=
  st.doctor_slots.flatMap fun p =>
    if preferred_doctor.isSome ∧ some p.1 ≠ preferred_doctor then []
    else (p.2.filter fun i => (st.slotAt i).isAvailable).map fun i =>
      (i, calcSlotScore (st.slotAt i) preferred_date preferred_time
            risk_level urgency_score)

/-- `list.sort(key=score, reverse=True)` followed by `[0]`: Python's sort is
stable, so the head of the descending sort is the first element of maximal
score in the original order.  This function computes that element directly. -/
def firstArgmax : List (ℕ × ℚ) → Option (ℕ × ℚ)
  | [] => none
  | x :: xs =>
    match firstArgmax xs with
    | none => some x
    | some b => if b.2 > x.2 then some b else some x

/-- `SlotOptimizer.find_optimal_slot` (returns the store index of the chosen
slot object). -/
def findOptimalSlot (st : SlotOptimizer) (preferred_doctor : Option String)
    (preferred_date : Option PyDateTime) (preferred_time : Option String)
    (risk_level : RiskLevel) (urgency_score : ℤ) : Option ℕ :=
  (firstArgmax (candidateSlots st preferred_doctor preferred_date
    preferred_time risk_level urgency_score)).map Prod.fst

/-- `SlotOptimizer.schedule_appointment`. -/
def scheduleAppointment (st : SlotOptimizer) (patient_id : String) (sid : ℕ)
    (buffer_time : ℤ) : SlotOptimizer × Bool :=
  let r := (st.slotAt sid).addPatient patient_id buffer_time
  if r.2 then
    ({ st.setSlot sid r.1 with
        slot_assignments := insertA st.slot_assignments patient_id sid }, true)
  else (st, false)

/-- `SlotOptimizer.reschedule_appointment`: releases the tracked slot (if
any), then books the new one; the assignment entry is rewritten only by the
booking step. -/
def rescheduleAppointment (st : SlotOptimizer) (patient_id : String) (sid : ℕ)
    (buffer_time : ℤ) : SlotOptimizer × Bool :=
  let st1 := match lookupA st.slot_assignments patient_id with
    | some oldSid => st.setSlot oldSid ((st.slotAt oldSid).removePatient patient_id).1
    | none => st
  st1.scheduleAppointment patient_id sid buffer_time

/-- `SlotOptimizer.cancel_appointment`. -/
def cancelAppointment (st : SlotOptimizer) (patient_id : String) :
    SlotOptimizer × Bool :=
  match lookupA st.slot_assignments patient_id with
  | some sid =>
    ({ st.setSlot sid ((st.slotAt sid).removePatient patient_id).1 with
        slot_assignments := eraseA st.slot_assignments patient_id }, true)
  | none => (st, false)

/-- `SlotOptimizer.get_doctor_availability`. -/
def getDoctorAvailability (st : SlotOptimizer) (doctor_id : String)
    (date : PyDateTime) : List ℕ :=
  match lookupA st.doctor_slots doctor_id with
  | none => []
  | some ids => ids.filter fun i =>
      (st.slotAt i).start_time.day = date.day ∧ (st.slotAt i).isAvailable

/-- The body of `optimize_schedule`'s inner loop for one doctor: at index
position `k` of the doctor's slot list, an empty slot merges into its
immediate predecessor when the boundary times touch and the predecessor is
not full. -/
def optimizeStep (st : SlotOptimizer) (ids : List ℕ) (k : ℕ) : SlotOptimizer :=
  if 0 < k ∧ k < ids.length then
    if (st.slotAt (ids.getD k 0)).current_capacity = 0 ∧
        (st.slotAt (ids.getD (k - 1) 0)).end_time =
          (st.slotAt (ids.getD k 0)).start_time ∧
        (st.slotAt (ids.getD (k - 1) 0)).current_capacity <
          (st.slotAt (ids.getD (k - 1) 0)).max_capacity then
      st.setSlot (ids.getD (k - 1) 0)
        { st.slotAt (ids.getD (k - 1) 0) with
            end_time := (st.slotAt (ids.getD k 0)).end_time
            max_capacity := min ((st.slotAt (ids.getD (k - 1) 0)).max_capacity + 1) 3 }
    else st
  else st

/-- `SlotOptimizer.optimize_schedule` (state effect only; the returned
statistics dict is not modelled). -/
def optimizeSchedule (st : SlotOptimizer) : SlotOptimizer :=
  st.doctor_slots.foldl
    (fun acc p => (List.range p.2.length).foldl
      (fun acc2 k => optimizeStep acc2 p.2 k) acc)
    st

end SlotOptimizer

/-! ## The `heapq` priority queue used by `waitlist_manager.py`

`WaitlistEntry.__lt__` compares by `priority_score >`, so Python's min-heap
functions keep the entry with the *highest* priority score at index 0.  The
functions below model the heap-order contract of `heapq.heapify` /
`heapq.heappush` with the standard sift procedures: the resulting array is
a valid heap for the entry ordering (on equal keys the arrangement of an
equivalent CPython run can differ, but every observation the code makes —
the root after a fresh `heapify` — depends only on the heap order). -/

section Heap

variable {α : Type} [Inhabited α]

/-- Read `l[i]` (in-range everywhere it is used). -/
def getH (l : List α) (i : ℕ) : α := l.getD i default

/-- Swap two positions of a list. -/
def swapH (l : List α) (i j : ℕ) : List α :=
  if i < l.length ∧ j < l.length then
    (l.set i (getH l j)).set j (getH l i)
  else l

variable (κ : α → ℤ)

/-- Index of the child of `i` with the larger key (left child exists). -/
def maxChildIdx (l : List α) (i : ℕ) : ℕ :=
  if 2 * i + 2 < l.length ∧ κ (getH l (2 * i + 1)) < κ (getH l (2 * i + 2)) then
    2 * i + 2
  else 2 * i + 1

/-- Sift the element at `i` down until both children have smaller-or-equal
keys (`heapq._siftup`, with the inverted `__lt__` making it a max-heap on
the key). -/
def siftDownH (l : List α) (i : ℕ) : List α :=
  if _h : 2 * i + 1 < l.length then
    if κ (getH l i) < κ (getH l (maxChildIdx κ l i)) then
      siftDownH (swapH l i (maxChildIdx κ l i)) (maxChildIdx κ l i)
    else l
  else l
termination_by l.length - i
decreasing_by
  have hc : maxChildIdx κ l i = 2 * i + 2 ∨ maxChildIdx κ l i = 2 * i + 1 := by
    unfold maxChildIdx; split <;> simp
  have hlen : (swapH l i (maxChildIdx κ l i)).length = l.length := by
    unfold swapH; split <;> simp
  rw [hlen]
  rcases hc with hc | hc <;> rw [hc] at * <;> omega

/-- Floyd's bottom-up pass of `heapq.heapify`: sift internal nodes in
reverse order.  `heapifyAuxH l (k+1)` processes index `k` next. -/
def heapifyAuxH : List α → ℕ → List α
  | l, 0 => l
  | l, k + 1 => heapifyAuxH (siftDownH κ l k) k

/-- `heapq.heapify`. -/
def heapifyH (l : List α) : List α := heapifyAuxH κ l (l.length / 2)

/-- Sift a freshly appended element up toward the root
(`heapq._siftdown` in CPython's naming). -/
def siftUpH (l : List α) (i : ℕ) : List α :=
  if 0 < i ∧ κ (getH l ((i - 1) / 2)) < κ (getH l i) then
    siftUpH (swapH l i ((i - 1) / 2)) ((i - 1) / 2)
  else l
termination_by i
decreasing_by omega

/-- `heapq.heappush`. -/
def heapPushH (l : List α) (x : α) : List α := siftUpH κ (l ++ [x]) l.length

/-- All parent/child edges whose parent index is at least `s` are ordered
(parent key ≥ child key).  `HeapFromH κ l 0` is the full heap property. -/
def HeapFromH (l : List α) (s : ℕ) : Prop :=
  ∀ j, 0 < j → j < l.length → s ≤ (j - 1) / 2 →
    κ (getH l j) ≤ κ (getH l ((j - 1) / 2))

end Heap

/-! ## WaitlistManager (`Hospital_Ai_schedulers/waitlist_manager.py`) -/

/-- `WaitlistEntry` object state. -/
structure WaitlistEntry where
  patient_id : String
  no_show_probability : ℚ
  urgency_score : ℤ
  entry_date : PyDateTime
  preferred_doctor : Option String
  preferred_date : Option PyDateTime
  medical_notes : String
  waiting_days : ℤ
  last_contact_date : PyDateTime
  contact_attempts : ℤ
  priority_score : ℤ
deriving DecidableEq, Repr, Inhabited

namespace WaitlistEntry

/-- `WaitlistEntry._calculate_priority_score`: recomputes the score from a
fresh default `RiskAssessor`.  Python computes over floats and truncates
with `int()`; for the reachable rational values the truncation agrees. -/
def calculatePriorityScore (e : WaitlistEntry) : WaitlistEntry :=
  let risk_level := assessRisk defaultRiskAssessor e.no_show_probability
  let base_priority : ℤ := riskBasePriority risk_level
  let urgency_multiplier : ℚ := (e.urgency_score : ℚ) / 5
  let waiting_bonus : ℚ := (min e.waiting_days 7 : ℤ) * (1/2 : ℚ)
  let risk_bonus : ℚ :=
    match risk_level with
    | .high => 2
    | .medium => 1
    | .low => 0
  let raw := pyTrunc ((base_priority : ℚ) * urgency_multiplier + waiting_bonus + risk_bonus)
  { e with priority_score := max 1 (min raw 10) }

/-- `WaitlistEntry.__init__` (score computed immediately, waiting days 0). -/
def create (patient_id : String) (no_show_probability : ℚ) (urgency_score : ℤ)
    (entry_date : PyDateTime) (preferred_doctor : Option String)
    (preferred_date : Option PyDateTime) (medical_notes : String) :
    WaitlistEntry :=
  calculatePriorityScore
    { patient_id := patient_id
      no_show_probability := no_show_probability
      urgency_score := urgency_score
      entry_date := entry_date
      preferred_doctor := preferred_doctor
      preferred_date := preferred_date
      medical_notes := medical_notes
      waiting_days := 0
      last_contact_date := entry_date
      contact_attempts := 0
      priority_score := 0 }

/-- `WaitlistEntry.update_waiting_time`. -/
def updateWaitingTime (now : PyDateTime) (e : WaitlistEntry) : WaitlistEntry :=
  calculatePriorityScore { e with waiting_days := PyDateTime.diffDays now e.entry_date }

end WaitlistEntry

/-- `WaitlistManager` state.  Entry objects live in the store `entries`
(addressed by index) because Python shares one mutable `WaitlistEntry`
between the `waitlist` heap list and the `patient_records` dict. -/
structure WaitlistManager where
  entries : List WaitlistEntry
  waitlist : List ℕ
  patient_records : List (String × ℕ)
  contact_schedule : List (String × PyDateTime)
deriving DecidableEq, Repr, Inhabited

namespace WaitlistManager

/-- `WaitlistManager.__init__`. -/
def init : WaitlistManager := ⟨[], [], [], []⟩

/-- Dereference an entry id. -/
def entryAt (st : WaitlistManager) (i : ℕ) : WaitlistEntry :=
  st.entries.getD i default

/-- Key function the heap compares by: the current priority score of the
referenced entry object. -/
def keyOf (st : WaitlistManager) (i : ℕ) : ℤ := (st.entryAt i).priority_score

/-- `WaitlistManager._schedule_contact`. -/
def scheduleContact (st : WaitlistManager) (patient_id : String)
    (now : PyDateTime) (days_delay : ℤ) : WaitlistManager :=
  { st with contact_schedule :=
      insertA st.contact_schedule patient_id ⟨now.day + days_delay, now.minute⟩ }

/-- `WaitlistManager.add_patient` (entry date is `datetime.now()`, modelled
by the `now` argument). -/
def addPatient (st : WaitlistManager) (now : PyDateTime) (patient_id : String)
    (no_show_probability : ℚ) (urgency_score : ℤ)
    (preferred_doctor : Option String) (preferred_date : Option PyDateTime)
    (medical_notes : String) : WaitlistManager × Bool :=
  if memA st.patient_records patient_id then (st, false)
  else
    let e := WaitlistEntry.create patient_id no_show_probability urgency_score now
      preferred_doctor preferred_date medical_notes
    let eid := st.entries.length
    let st1 : WaitlistManager :=
      { st with
          entries := st.entries ++ [e]
          patient_records := insertA st.patient_records patient_id eid }
    let st2 := { st1 with waitlist := heapPushH st1.keyOf st1.waitlist eid }
    (st2.scheduleContact patient_id now 1, true)

/-- `WaitlistManager.remove_patient`: drops the record, rebuilds the heap
list without that patient, forgets the contact schedule. -/
def removePatient (st : WaitlistManager) (patient_id : String) :
    WaitlistManager × Bool :=
  if memA st.patient_records patient_id then
    let st1 : WaitlistManager :=
      { st with
          patient_records := eraseA st.patient_records patient_id
          waitlist := heapifyH st.keyOf
            (st.waitlist.filter fun i => (st.entryAt i).patient_id ≠ patient_id)
          contact_schedule := eraseA st.contact_schedule patient_id }
    (st1, true)
  else (st, false)

/-- `WaitlistManager._update_all_waiting_times`: refresh every entry on the
waitlist in heap-list order, then re-heapify. -/
def updateAllWaitingTimes (st : WaitlistManager) (now : PyDateTime) :
    WaitlistManager :=
  let st1 := st.waitlist.foldl
    (fun acc i =>
      { acc with entries :=
          acc.entries.set i ((acc.entryAt i).updateWaitingTime now) })
    st
  { st1 with waitlist := heapifyH st1.keyOf st1.waitlist }

/-- `WaitlistManager.get_top_patients`: refresh waiting times, then return
the first `count` entries of the heap list. -/
def getTopPatients (st : WaitlistManager) (now : PyDateTime) (count : ℕ) :
    List WaitlistEntry × WaitlistManager :=
  let st1 := st.updateAllWaitingTimes now
  ((st1.waitlist.take count).map st1.entryAt, st1)

/-- `WaitlistManager.update_patient_priority`. -/
def updatePatientPriority (st : WaitlistManager) (patient_id : String)
    (new_no_show_probability : Option ℚ) (new_urgency_score : Option ℤ) :
    WaitlistManager × Bool :=
  match lookupA st.patient_records patient_id with
  | none => (st, false)
  | some eid =>
    let e0 := st.entryAt eid
    let e1 := match new_no_show_probability with
      | some p => { e0 with no_show_probability := p }
      | none => e0
    let e2 := match new_urgency_score with
      | some u => { e1 with urgency_score := u }
      | none => e1
    let st1 : WaitlistManager :=
      { st with entries := st.entries.set eid e2.calculatePriorityScore }
    ({ st1 with waitlist := heapifyH st1.keyOf st1.waitlist }, true)

end WaitlistManager

/-! ## AIAppointmentScheduler (`Hospital_Ai_schedulers/ai_agent.py`)

The ML model is an external collaborator; its two calls are modelled as
`Except`-valued oracle arguments (`.error` = the Python call raised). -/

/-- The dict returned by `MLModelIntegration.predict_with_full_output`. -/
structure FullPrediction where
  label : String
  no_show_probability : ℚ
  show_probability : ℚ
deriving DecidableEq, Repr, Inhabited

/-- The appointment-request dict (`.get` fields; `none` models both a
missing key and a falsy `None` value). -/
structure AppointmentRequest where
  patient_id : Option String
  preferred_doctor : Option String
  preferred_date : Option PyDateTime
  preferred_time : Option String
  urgency_score : Option ℤ
  medical_notes : Option String
deriving DecidableEq, Repr, Inhabited

/-- The result dict of `schedule_appointment` /
`_execute_scheduling_decision`: a field is `none` exactly when the Python
dict lacks the key. -/
structure SchedResult where
  success : Bool
  action : String
  patient_id : Option String
  risk_level : Option String
  no_show_probability : Option ℚ
  show_probability : Option ℚ
  ml_prediction : Option String
  slot_assigned : Option Bool
  doctor_id : Option String
  start_time : Option PyDateTime
  end_time : Option PyDateTime
  buffer_time : Option ℤ
  requires_confirmation : Option Bool
  rescheduled : Option Bool
  waitlist_priority : Option ℤ
  estimated_wait_time : Option String
  error : Option String
deriving DecidableEq, Repr, Inhabited

/-- The whole-scheduler state: configured risk thresholds plus the two
stateful components (`auto_optimize_schedule` defaults to true). -/
structure AIScheduler where
  risk_assessor : RiskAssessor
  slot_optimizer : SlotOptimizer
  waitlist_manager : WaitlistManager
  auto_optimize_schedule : Bool
deriving DecidableEq, Repr, Inhabited

namespace AIScheduler

/-- `AIAppointmentScheduler._estimate_wait_time`. -/
def estimateWaitTime (priority_score : ℤ) : String :=
  if priority_score ≥ 8 then "1-2 days"
  else if priority_score ≥ 6 then "3-5 days"
  else if priority_score ≥ 4 then "1-2 weeks"
  else "2-4 weeks"

/-- `AIAppointmentScheduler._check_slot_availability`: returns the
available-flag and the chosen slot id (if any). -/
def checkSlotAvailability (st : SlotOptimizer) (req : AppointmentRequest) :
    Bool × Option ℕ :=
  match req.preferred_doctor, req.preferred_date with
  | some doc, some date =>
    let avail := st.getDoctorAvailability doc date
    match avail with
    | i :: _ => (true, some i)
    | [] =>
      (false, st.findOptimalSlot req.preferred_doctor req.preferred_date
        req.preferred_time .low 1)
  | _, _ =>
    (false, st.findOptimalSlot req.preferred_doctor req.preferred_date
      req.preferred_time .low 1)

/-- `AIAppointmentScheduler._execute_scheduling_decision`. -/
def executeSchedulingDecision (st : SlotOptimizer) (req : AppointmentRequest)
    (strategy : Strategy) (optimal_slot : Option ℕ)
    (no_show_probability : ℚ) : SchedResult × SlotOptimizer :=
  let patient_id := req.patient_id.getD "unknown"
  let base : SchedResult :=
    { success := true
      action := strategy.action
      patient_id := some patient_id
      risk_level := some strategy.risk_level
      no_show_probability := some no_show_probability
      show_probability := none
      ml_prediction := none
      slot_assigned := none
      doctor_id := none
      start_time := none
      end_time := none
      buffer_time := none
      requires_confirmation := none
      rescheduled := none
      waitlist_priority := none
      estimated_wait_time := none
      error := none }
  if strategy.action = "confirm" then
    match optimal_slot with
    | some sid =>
      let r := st.scheduleAppointment patient_id sid strategy.buffer_time
      if r.2 then
        ({ base with
            slot_assigned := some true
            doctor_id := some (st.slotAt sid).doctor_id
            start_time := some (st.slotAt sid).start_time
            end_time := some (st.slotAt sid).end_time
            buffer_time := some strategy.buffer_time }, r.1)
      else
        ({ base with
            success := false
            error := some "Failed to schedule appointment" }, r.1)
    | none =>
      ({ base with
          success := false
          error := some "No suitable slot available" }, st)
  else if strategy.action = "confirm_with_buffer" then
    match optimal_slot with
    | some sid =>
      let r := st.scheduleAppointment patient_id sid strategy.buffer_time
      if r.2 then
        ({ base with
            slot_assigned := some true
            doctor_id := some (st.slotAt sid).doctor_id
            start_time := some (st.slotAt sid).start_time
            end_time := some (st.slotAt sid).end_time
            buffer_time := some strategy.buffer_time
            requires_confirmation := some strategy.requires_confirmation }, r.1)
      else
        ({ base with
            success := false
            error := some "Failed to schedule appointment" }, r.1)
    | none =>
      ({ base with
          success := false
          error := some "No suitable slot available" }, st)
  else if strategy.action = "reschedule" then
    match optimal_slot with
    | some sid =>
      let r := st.scheduleAppointment patient_id sid strategy.buffer_time
      if r.2 then
        ({ base with
            slot_assigned := some true
            doctor_id := some (st.slotAt sid).doctor_id
            start_time := some (st.slotAt sid).start_time
            end_time := some (st.slotAt sid).end_time
            rescheduled := some true }, r.1)
      else
        ({ base with
            success := false
            error := some "Failed to reschedule appointment" }, r.1)
    | none =>
      ({ base with
          success := false
          error := some "No alternative slot available" }, st)
  else if strategy.action = "waitlist" then
    ({ base with
        slot_assigned := some false
        waitlist_priority := some strategy.waitlist_priority
        estimated_wait_time := some (estimateWaitTime strategy.waitlist_priority) },
      st)
  else
    ({ base with
        success := false
        error := some ("Unknown action: " ++ strategy.action) }, st)

/-- `AIAppointmentScheduler._add_to_waitlist`. -/
def addToWaitlist (wm : WaitlistManager) (now : PyDateTime)
    (req : AppointmentRequest) (no_show_probability : ℚ) : WaitlistManager :=
  (wm.addPatient now (req.patient_id.getD "unknown") no_show_probability
    (req.urgency_score.getD 1) req.preferred_doctor req.preferred_date
    (req.medical_notes.getD "")).1

/-- The `except` branch of `schedule_appointment`: the error dict carries
only the success flag, the error string and the action. -/
def errorResult (e : String) : SchedResult :=
  { success := false
    action := "error"
    patient_id := none
    risk_level := none
    no_show_probability := none
    show_probability := none
    ml_prediction := none
    slot_assigned := none
    doctor_id := none
    start_time := none
    end_time := none
    buffer_time := none
    requires_confirmation := none
    rescheduled := none
    waitlist_priority := none
    estimated_wait_time := none
    error := some e }

/-- `AIAppointmentScheduler.schedule_appointment`.  `oracleProb` models the
`predict_no_show_probability` call, `oracleFull` the
`predict_with_full_output` call; `now` stands for `datetime.now()`. -/
def scheduleAppointment (sys : AIScheduler)
    (oracleProb : Except String ℚ)
    (oracleFull : Except String FullPrediction)
    (req : AppointmentRequest) (now : PyDateTime) :
    SchedResult × AIScheduler :=
  match oracleProb with
  | .error e => (errorResult e, sys)
  | .ok no_show_probability =>
    match oracleFull with
    | .error e => (errorResult e, sys)
    | .ok full =>
      let risk_level := assessRisk sys.risk_assessor no_show_probability
      let avail := checkSlotAvailability sys.slot_optimizer req
      let strategy := getSchedulingStrategy risk_level avail.1
        (match avail.2 with
          | some sid => (sys.slot_optimizer.slotAt sid).availableCapacity
          | none => 0)
      let er := executeSchedulingDecision sys.slot_optimizer req strategy
        avail.2 no_show_probability
      let result := { er.1 with
        ml_prediction := some full.label
        no_show_probability := some full.no_show_probability
        show_probability := some full.show_probability
        risk_level := some risk_level.value }
      let wm := if result.action = "waitlist" then
          addToWaitlist sys.waitlist_manager now req no_show_probability
        else sys.waitlist_manager
      let so := if sys.auto_optimize_schedule then er.2.optimizeSchedule else er.2
      (result, { sys with slot_optimizer := so, waitlist_manager := wm })

end AIScheduler

/-! ## Specification-side definitions and claim-specific input data -/

/-- Modelled from the spec wording of `calculate_waitlist_priority`:
`clamp(round(risk_base[tier] * (urgency_score/5) + min(waiting_time,7)*0.5), 1, 10)`
with risk_base LOW=1, MEDIUM=3, HIGH=5 and tier from `assess_risk`.  Used
only to compare the spec formula (with `round`) against the code. -/
def specRoundWaitlistPriority (ra : RiskAssessor) (no_show_probability : ℚ)
    (urgency_score : ℤ) (waiting_time : ℤ) : ℤ :=
  let base : ℤ := riskBasePriority (assessRisk ra no_show_probability)
  max 1 (min (round ((base : ℚ) * ((urgency_score : ℚ) / 5)
    + ((min waiting_time 7 : ℤ) : ℚ) * (1/2))) 10)

/-- Modelled from the claim wording of the slot score (C5): date-proximity
`max(0, 10 - |days|)` when a preferred date is given, plus 5 when the start
hour lies in the requested coarse band (morning 9-12, afternoon 13-17,
evening 18-20), plus `buffer_time*0.1` for HIGH risk or `buffer_time*0.05`
for MEDIUM risk, plus `urgency_score*2`, plus `available_capacity*0.5`. -/
def specSlotScore (slot : DoctorSlot) (preferred_date : Option PyDateTime)
    (preferred_time : Option String) (risk_level : RiskLevel)
    (urgency_score : ℤ) : ℚ :=
  (match preferred_date with
    | some d => ((max 0 (10 - |slot.start_time.day - d.day|) : ℤ) : ℚ)
    | none => 0)
  + (if (preferred_time = some "morning" ∧ 9 ≤ slot.start_time.hour ∧ slot.start_time.hour ≤ 12)
        ∨ (preferred_time = some "afternoon" ∧ 13 ≤ slot.start_time.hour ∧ slot.start_time.hour ≤ 17)
        ∨ (preferred_time = some "evening" ∧ 18 ≤ slot.start_time.hour ∧ slot.start_time.hour ≤ 20)
      then 5 else 0)
  + (match risk_level with
      | .high => (slot.buffer_time : ℚ) * (1/10)
      | .medium => (slot.buffer_time : ℚ) * (1/20)
      | .low => 0)
  + (urgency_score : ℚ) * 2 + (slot.availableCapacity : ℚ) * (1/2)

/-- Modelled from the claim wording of schedule registration (C9): one slot
per tile of `dur` minutes starting at `startHour` and covering
`[startHour, endHour)`, for every weekday day in `[startDay, endDay]` and
for no weekend day. -/
def specScheduleSlots (doctor_id : String) (startDay endDay : ℤ)
    (startHour endHour dur : ℕ) (cap : ℤ) : List DoctorSlot :=
  ((((List.range (endDay + 1 - startDay).toNat).map
      fun k : ℕ => startDay + (k : ℤ)).filter fun d => Int.emod d 7 < 5).flatMap
    fun d =>
      (List.range ((endHour * 60 - startHour * 60 + dur - 1) / dur)).map
        fun k : ℕ =>
          mkDoctorSlot doctor_id ⟨d, ((startHour * 60 + k * dur : ℕ) : ℤ)⟩
            ⟨d, ((startHour * 60 + k * dur + dur : ℕ) : ℤ)⟩ cap)

/-- The operations quantified over by the slot-capacity invariant claim. -/
inductive SlotOp
  | schedule (patient : String) (sid : ℕ) (buffer : ℤ)
  | reschedule (patient : String) (sid : ℕ) (buffer : ℤ)
  | cancel (patient : String)
  | optimize

/-- Run one `SlotOptimizer` operation (the returned flag is dropped). -/
def runOp (st : SlotOptimizer) : SlotOp → SlotOptimizer
  | .schedule p sid buf => (st.scheduleAppointment p sid buf).1
  | .reschedule p sid buf => (st.rescheduleAppointment p sid buf).1
  | .cancel p => (st.cancelAppointment p).1
  | .optimize => st.optimizeSchedule

/-- Run a sequence of `SlotOptimizer` operations. -/
def runOps (st : SlotOptimizer) (ops : List SlotOp) : SlotOptimizer :=
  ops.foldl runOp st

/-- Per-slot invariant claimed by the spec: occupant-list length equals the
occupancy counter, which stays within `[0, max_capacity]`. -/
def SlotInv (s : DoctorSlot) : Prop :=
  (s.patients.length : ℤ) = s.current_capacity ∧
    0 ≤ s.current_capacity ∧ s.current_capacity ≤ s.max_capacity

/-- A doctor registered Monday (day 0) 9:00-10:00, 30-minute slots,
`max_capacity = 5` (the literal value of
`SlotOptimizer.init.addDoctorSchedule "D1" ⟨0,0⟩ ⟨0,0⟩ 9 10 30 5`,
see the registration lemma below). -/
def c3Registered : SlotOptimizer :=
  ⟨[⟨"D1", ⟨0, 540⟩, ⟨0, 570⟩, 5, 0, "consultation", [], 0⟩,
    ⟨"D1", ⟨0, 570⟩, ⟨0, 600⟩, 5, 0, "consultation", [], 0⟩],
   [("D1", [0, 1])], []⟩

/-- Four patients booked into the first slot of `c3Registered`. -/
def c3Loaded : SlotOptimizer :=
  runOps c3Registered
    [.schedule "p1" 0 0, .schedule "p2" 0 0, .schedule "p3" 0 0,
     .schedule "p4" 0 0]

/-- System state used for the C1/C2 concrete runs: default thresholds, no
slots, empty waitlist. -/
def emptySystem : AIScheduler :=
  ⟨{}, SlotOptimizer.init, WaitlistManager.init, true⟩

/-- System state with the two free `c3Registered` slots. -/
def oneDoctorSystem : AIScheduler :=
  ⟨{}, c3Registered, WaitlistManager.init, true⟩

/-- Request with no stated preferences. -/
def plainRequest : AppointmentRequest :=
  ⟨some "P1", none, none, none, none, none⟩

/-- Request preferring doctor D1 on day 0 (a slot is free there). -/
def preferredRequest : AppointmentRequest :=
  ⟨some "P1", some "D1", some ⟨0, 0⟩, none, none, none⟩

/-- `c3Loaded` with a fifth booking, filling the first slot. -/
def c3Full : SlotOptimizer := runOps c3Loaded [.schedule "p5" 0 0]

/-- Patient `p` booked into slot 0, five other patients filling slot 1. -/
def c10Base : SlotOptimizer :=
  runOps c3Registered
    [.schedule "p" 0 0, .schedule "q1" 1 0, .schedule "q2" 1 0,
     .schedule "q3" 1 0, .schedule "q4" 1 0, .schedule "q5" 1 0]

/-- A two-entry waitlist state used to instantiate the ordering theorem
(entry fields as a Python run would hold them; the stored scores are
refreshed by `get_top_patients` itself before ordering). -/
def demoWaitlist : WaitlistManager :=
  ⟨[⟨"w1", ⟨1, 2, by decide, by decide⟩, 3, ⟨0, 0⟩, none, none, "", 0, ⟨0, 0⟩, 0, 2⟩,
    ⟨"w2", ⟨9, 10, by decide, by decide⟩, 5, ⟨0, 0⟩, none, none, "", 0, ⟨0, 0⟩, 0, 7⟩],
   [0, 1], [("w1", 0), ("w2", 1)], []⟩

/-- Probability 0.9 (raw-constructor rational literal). -/
def probHigh : ℚ := ⟨9, 10, by decide, by decide⟩

/-- Probability 0.5 (raw-constructor rational literal). -/
def probMed : ℚ := ⟨1, 2, by decide, by decide⟩

/-- Probability 0.1 (raw-constructor rational literal). -/
def probLow : ℚ := ⟨1, 10, by decide, by decide⟩

/-- An ML full-prediction value used in concrete runs. -/
def fullPredHigh : FullPrediction := ⟨"No-show", probHigh, probLow⟩

/-- An ML full-prediction value used in concrete runs. -/
def fullPredMed : FullPrediction := ⟨"Show", probMed, probMed⟩

instance : DecidablePred SlotInv := fun s => by unfold SlotInv; infer_instance

/-- A small clinic whose slots all have `max_capacity = 2`, used to
instantiate the amended capacity-invariant theorem. -/
def smallClinic : SlotOptimizer :=
  ⟨[⟨"D2", ⟨0, 540⟩, ⟨0, 570⟩, 2, 0, "consultation", [], 0⟩,
    ⟨"D2", ⟨0, 570⟩, ⟨0, 600⟩, 2, 0, "consultation", [], 0⟩],
   [("D2", [0, 1])], []⟩

/-! # Theorems -/

/-- C6: `assess_risk` is a monotone non-decreasing step function of the
probability (with LOW < MEDIUM < HIGH ordered by `rank`), and the
boundaries are inclusive toward the lower tier: `p ≤ low_threshold` gives
LOW, otherwise `p ≤ medium_threshold` gives MEDIUM, otherwise HIGH. -/
theorem c6_assess_risk_monotone_inclusive (ra : RiskAssessor) :
    (∀ p1 p2 : ℚ, p1 ≤ p2 →
      (assessRisk ra p1).rank ≤ (assessRisk ra p2).rank) ∧
    (∀ p : ℚ,
      (p ≤ ra.low_threshold → assessRisk ra p = .low) ∧
      (¬ p ≤ ra.low_threshold → p ≤ ra.medium_threshold →
        assessRisk ra p = .medium) ∧
      (¬ p ≤ ra.low_threshold → ¬ p ≤ ra.medium_threshold →
        assessRisk ra p = .high)) := by
  constructor
  · intro p1 p2 h12
    unfold assessRisk
    split_ifs <;> first | decide | linarith
  · intro p
    refine ⟨fun h => ?_, fun h1 h2 => ?_, fun h1 h2 => ?_⟩ <;>
      · unfold assessRisk
        split_ifs <;> rfl

/-- Witness for C6 at concrete inputs. -/
theorem c6_witness :
    (1 : ℚ)/10 ≤ (2 : ℚ)/10 ∧
    (assessRisk defaultRiskAssessor (1/10)).rank ≤
      (assessRisk defaultRiskAssessor (2/10)).rank ∧
    assessRisk defaultRiskAssessor (3/10) = .low ∧
    assessRisk defaultRiskAssessor (6/10) = .medium := by
  refine ⟨by norm_num, ?_, ?_, ?_⟩
  · exact (c6_assess_risk_monotone_inclusive defaultRiskAssessor).1
      (1/10) (2/10) (by norm_num)
  · exact ((c6_assess_risk_monotone_inclusive defaultRiskAssessor).2 (3/10)).1
      (by norm_num [defaultRiskAssessor, Rat.mk'_eq_divInt, Rat.divInt_eq_div])
  · exact (((c6_assess_risk_monotone_inclusive defaultRiskAssessor).2 (6/10)).2).1
      (by norm_num [defaultRiskAssessor, Rat.mk'_eq_divInt, Rat.divInt_eq_div]) (by norm_num [defaultRiskAssessor, Rat.mk'_eq_divInt, Rat.divInt_eq_div])

/-- C4 fails as stated: the code truncates with `int()` where the claim
says `round`.  At probability 0.5 (MEDIUM), urgency 3, waiting 0 the code
computes `int(3 * 0.6) = 1` while the claimed formula rounds `1.8` to 2. -/
theorem c4_counterexample :
    calculateWaitlistPriority defaultRiskAssessor (1/2) 3 0 = 1 ∧
    specRoundWaitlistPriority defaultRiskAssessor (1/2) 3 0 = 2 := by
  constructor
  · unfold calculateWaitlistPriority pyTrunc riskBasePriority assessRisk
      defaultRiskAssessor
    norm_num [Rat.mk'_eq_divInt, Rat.divInt_eq_div]
  · unfold specRoundWaitlistPriority riskBasePriority assessRisk defaultRiskAssessor
    norm_num [round_eq, Rat.mk'_eq_divInt, Rat.divInt_eq_div]

/-- C4 (amended): with truncation (= floor on these non-negative values)
in place of rounding, `calculate_waitlist_priority` computes exactly
`clamp(floor(risk_base[tier]*(urgency/5) + min(waiting,7)*0.5), 1, 10)`,
and the result always lies in `[1, 10]`. -/
theorem c4_waitlist_priority_floor_bounded (ra : RiskAssessor) (p : ℚ)
    (u w : ℤ) (_hp0 : 0 ≤ p) (_hp1 : p ≤ 1) (hu1 : 1 ≤ u) (hu5 : u ≤ 5)
    (hw : 0 ≤ w) :
    calculateWaitlistPriority ra p u w =
      max 1 (min (⌊(riskBasePriority (assessRisk ra p) : ℚ) * ((u : ℚ) / 5)
        + ((min w 7 : ℤ) : ℚ) * (1/2)⌋) 10) ∧
    1 ≤ calculateWaitlistPriority ra p u w ∧
    calculateWaitlistPriority ra p u w ≤ 10 := by
  have hbase : (0 : ℚ) ≤ (riskBasePriority (assessRisk ra p) : ℚ) := by
    cases assessRisk ra p <;> simp [riskBasePriority]
  have harg : (0 : ℚ) ≤ (riskBasePriority (assessRisk ra p) : ℚ) * ((u : ℚ) / 5)
      + ((min w 7 : ℤ) : ℚ) * (1/2) := by
    have h1 : (0 : ℚ) ≤ (u : ℚ) / 5 := by
      have : (0 : ℚ) ≤ (u : ℚ) := by exact_mod_cast by omega
      linarith
    have h2 : (0 : ℚ) ≤ ((min w 7 : ℤ) : ℚ) := by
      exact_mod_cast by omega
    have := mul_nonneg hbase h1
    linarith
  refine ⟨?_, ?_, ?_⟩
  · unfold calculateWaitlistPriority pyTrunc
    simp only [if_pos harg]
  · unfold calculateWaitlistPriority
    exact le_max_left _ _
  · unfold calculateWaitlistPriority
    exact max_le (by norm_num) (min_le_right _ _)

/-- Witness for C4 (amended) at probability 0.5, urgency 3, waiting 0. -/
theorem c4_witness :
    calculateWaitlistPriority defaultRiskAssessor (1/2) 3 0 =
      max 1 (min (⌊(riskBasePriority (assessRisk defaultRiskAssessor (1/2)) : ℚ)
        * ((3 : ℚ) / 5) + ((min 0 7 : ℤ) : ℚ) * (1/2)⌋) 10) ∧
    1 ≤ calculateWaitlistPriority defaultRiskAssessor (1/2) 3 0 ∧
    calculateWaitlistPriority defaultRiskAssessor (1/2) 3 0 ≤ 10 :=
  c4_waitlist_priority_floor_bounded defaultRiskAssessor (1/2) 3 0
    (by norm_num) (by norm_num) (by norm_num) (by norm_num) (by norm_num)

/-- C8: `schedule_appointment` returns false and leaves the whole optimizer
state unchanged when the slot has no spare capacity; otherwise it returns
true, appends the patient to the occupant list, increments the occupancy
counter, raises the recorded buffer time to the max of old and requested,
and records the patient's assignment. -/
theorem c8_schedule_spare_capacity (st : SlotOptimizer) (p : String)
    (sid : ℕ) (buf : ℤ) :
    (¬ (st.slotAt sid).current_capacity < (st.slotAt sid).max_capacity →
      st.scheduleAppointment p sid buf = (st, false)) ∧
    ((st.slotAt sid).current_capacity < (st.slotAt sid).max_capacity →
      (st.scheduleAppointment p sid buf).2 = true ∧
      (st.scheduleAppointment p sid buf).1 =
        { st with
            slots := st.slots.set sid
              { st.slotAt sid with
                  patients := (st.slotAt sid).patients ++ [p]
                  current_capacity := (st.slotAt sid).current_capacity + 1
                  buffer_time := max (st.slotAt sid).buffer_time buf }
            slot_assignments := insertA st.slot_assignments p sid }) := by
  constructor
  · intro h
    unfold SlotOptimizer.scheduleAppointment DoctorSlot.addPatient
    simp [h]
  · intro h
    unfold SlotOptimizer.scheduleAppointment DoctorSlot.addPatient
      SlotOptimizer.setSlot
    simp [h]

/-- Witness for C8: booking into the full first slot of `c3Full` fails
without mutation; booking into the non-full first slot of `c3Loaded`
succeeds. -/
theorem c8_witness :
    c3Full.scheduleAppointment "p6" 0 0 = (c3Full, false) ∧
    (c3Loaded.scheduleAppointment "p5" 0 0).2 = true :=
  ⟨(c8_schedule_spare_capacity c3Full "p6" 0 0).1 (by decide),
   ((c8_schedule_spare_capacity c3Loaded "p5" 0 0).2 (by decide)).1⟩

/-- The inner tiling loop produces one slot per `dur`-minute tile starting
at `t` while the tile start is below `endMin`. -/
theorem daySlots_eq_range (doc : String) (day : ℤ) (cap : ℤ) (e dur : ℕ)
    (hdur : 0 < dur) :
    ∀ t : ℕ,
      SlotOptimizer.daySlots doc day t e dur cap =
        (List.range ((e - t + dur - 1) / dur)).map
          (fun k : ℕ => mkDoctorSlot doc ⟨day, ((t + k * dur : ℕ) : ℤ)⟩
            ⟨day, ((t + k * dur + dur : ℕ) : ℤ)⟩ cap) := by
  suffices key : ∀ (m t : ℕ), e - t ≤ m →
      SlotOptimizer.daySlots doc day t e dur cap =
        (List.range ((e - t + dur - 1) / dur)).map
          (fun k : ℕ => mkDoctorSlot doc ⟨day, ((t + k * dur : ℕ) : ℤ)⟩
            ⟨day, ((t + k * dur + dur : ℕ) : ℤ)⟩ cap) by
    intro t
    exact key (e - t) t le_rfl
  intro m
  induction m with
  | zero =>
    intro t hm
    rw [SlotOptimizer.daySlots.eq_def]
    have ht : ¬ t < e := by omega
    rw [if_neg (by omega)]
    have h0 : (e - t + dur - 1) / dur = 0 := by
      have h1 : e - t = 0 := by omega
      rw [h1]
      exact Nat.div_eq_of_lt (by omega)
    rw [h0]
    rfl
  | succ m ih =>
    intro t hm
    by_cases ht : t < e
    · rw [SlotOptimizer.daySlots.eq_def, if_pos ⟨ht, hdur⟩,
        ih (t + dur) (by omega)]
      have hn : (e - t + dur - 1) / dur = (e - (t + dur) + dur - 1) / dur + 1 := by
        rcases Nat.lt_or_ge e (t + dur) with hlt | hge
        · have h1 : e - (t + dur) + dur - 1 = dur - 1 := by omega
          have h2 : e - t + dur - 1 = (e - t - 1) + dur := by omega
          rw [h1, h2, Nat.add_div_right _ hdur,
            Nat.div_eq_of_lt (by omega), Nat.div_eq_of_lt (by omega)]
        · have h2 : e - t + dur - 1 = (e - (t + dur) + dur - 1) + dur := by
            omega
          rw [h2, Nat.add_div_right _ hdur]
      rw [hn, List.range_succ_eq_map, List.map_cons, List.map_map]
      congr 1
      · simp only [mkDoctorSlot, DoctorSlot.mk.injEq, PyDateTime.mk.injEq,
          true_and, and_true]
        constructor <;>
          · push_cast
            ring
      · apply List.map_congr_left
        intro k _
        simp only [Function.comp_apply, Nat.succ_eq_add_one]
        have h1 : t + dur + k * dur = t + (k + 1) * dur := by ring
        rw [h1]
    · rw [SlotOptimizer.daySlots.eq_def]
      rw [if_neg (by omega)]
      have h0 : (e - t + dur - 1) / dur = 0 := by
        have h1 : e - t = 0 := by omega
        rw [h1]
        exact Nat.div_eq_of_lt (by omega)
      rw [h0]
      rfl

/-- The outer day loop of `add_doctor_schedule` visits exactly the days of
`[d, endDate.day]` (for midnight start/end dates) and tiles the weekdays. -/
theorem scheduleDays_eq_spec (doc : String) (cap : ℤ) (h1 h2 dur : ℕ)
    (hdur : 0 < dur) (ed : PyDateTime) (hm : ed.minute = 0) :
    ∀ d : ℤ,
      SlotOptimizer.scheduleDays doc d 0 ed h1 h2 dur cap =
        specScheduleSlots doc d ed.day h1 h2 dur cap := by
  suffices key : ∀ (n : ℕ) (d : ℤ), (ed.day + 1 - d).toNat ≤ n →
      SlotOptimizer.scheduleDays doc d 0 ed h1 h2 dur cap =
        specScheduleSlots doc d ed.day h1 h2 dur cap by
    intro d
    exact key (ed.day + 1 - d).toNat d le_rfl
  intro n
  induction n with
  | zero =>
    intro d hn
    rw [SlotOptimizer.scheduleDays.eq_def]
    have hle : ¬ PyDateTime.le ⟨d, 0⟩ ed := by
      simp only [PyDateTime.le]
      omega
    rw [if_neg hle]
    unfold specScheduleSlots
    have h0 : (ed.day + 1 - d).toNat = 0 := by omega
    rw [h0]
    rfl
  | succ n ih =>
    intro d hn
    by_cases hd : d ≤ ed.day
    · rw [SlotOptimizer.scheduleDays.eq_def]
      have hle : PyDateTime.le ⟨d, 0⟩ ed := by
        simp only [PyDateTime.le]
        omega
      rw [if_pos hle, ih (d + 1) (by omega)]
      unfold specScheduleSlots
      have hr : (ed.day + 1 - d).toNat = (ed.day + 1 - (d + 1)).toNat + 1 := by
        omega
      rw [hr, List.range_succ_eq_map, List.map_cons, List.map_map]
      have hmap : (List.range (ed.day + 1 - (d + 1)).toNat).map
            ((fun k : ℕ => d + (k : ℤ)) ∘ Nat.succ) =
          (List.range (ed.day + 1 - (d + 1)).toNat).map
            (fun k : ℕ => (d + 1) + (k : ℤ)) := by
        apply List.map_congr_left
        intro k _
        simp only [Function.comp_apply, Nat.succ_eq_add_one]
        push_cast
        ring
      rw [hmap, Nat.cast_zero, add_zero]
      by_cases hw : Int.emod d 7 < 5
      · rw [if_pos hw, List.filter_cons_of_pos (by simpa using hw),
          List.flatMap_cons]
        congr 1
        exact daySlots_eq_range doc d cap (h2 * 60) dur hdur (h1 * 60)
      · rw [if_neg hw, List.filter_cons_of_neg (by simpa using hw),
          List.nil_append]
    · rw [SlotOptimizer.scheduleDays.eq_def]
      have hle : ¬ PyDateTime.le ⟨d, 0⟩ ed := by
        simp only [PyDateTime.le]
        omega
      rw [if_neg hle]
      unfold specScheduleSlots
      have h0 : (ed.day + 1 - d).toNat = 0 := by omega
      rw [h0]
      rfl

/-- C9: registering a doctor schedule appends, for every weekday in the
inclusive day range `[start_date, end_date]` and for no weekend day, one
slot per `slot_duration`-minute tile covering `[start_hour, end_hour)`;
a range consisting of a single weekend day yields no slots at all. -/
theorem c9_add_doctor_schedule (st : SlotOptimizer) (doc : String)
    (sd ed : PyDateTime) (h1 h2 dur : ℕ) (cap : ℤ) (hdur : 0 < dur)
    (hsd : sd.minute = 0) (hed : ed.minute = 0) :
    (st.addDoctorSchedule doc sd ed h1 h2 dur cap).slots =
      st.slots ++ specScheduleSlots doc sd.day ed.day h1 h2 dur cap ∧
    (5 ≤ Int.emod sd.day 7 → sd.day = ed.day →
      (st.addDoctorSchedule doc sd ed h1 h2 dur cap).slots = st.slots) := by
  have hmain : (st.addDoctorSchedule doc sd ed h1 h2 dur cap).slots =
      st.slots ++ specScheduleSlots doc sd.day ed.day h1 h2 dur cap := by
    unfold SlotOptimizer.addDoctorSchedule
    rw [hsd, scheduleDays_eq_spec doc cap h1 h2 dur hdur ed hed sd.day]
  refine ⟨hmain, fun hwk hday => ?_⟩
  rw [hmain]
  have hempty : specScheduleSlots doc sd.day ed.day h1 h2 dur cap = [] := by
    unfold specScheduleSlots
    have hr : (ed.day + 1 - sd.day).toNat = 1 := by omega
    rw [hr]
    have hone : (List.range 1).map (fun k : ℕ => sd.day + (k : ℤ)) = [sd.day] := by
      rw [List.range_succ_eq_map]
      simp
    rw [hone,
      List.filter_cons_of_neg (by simpa using (by omega : ¬ Int.emod sd.day 7 < 5))]
    rfl
  rw [hempty, List.append_nil]

/-- No strategy produced by `get_scheduling_strategy` carries the action
string `"waitlist"` (the six possible actions are confirm, reschedule,
confirm_with_buffer, reschedule_optimal, confirm_with_extended_buffer and
waitlist_high_priority). -/
theorem strategy_action_ne_waitlist (rl : RiskLevel) (b : Bool) (c : ℤ) :
    (getSchedulingStrategy rl b c).action ≠ "waitlist" := by
  cases rl <;>
    · unfold getSchedulingStrategy lowRiskStrategy mediumRiskStrategy
        highRiskStrategy
      dsimp only
      split_ifs <;> decide

/-- For every non-`"waitlist"` strategy, `_execute_scheduling_decision`
produces either a successful booking record (slot details, no error) or a
failure record (error string, no slot details) — never both. -/
theorem executeDecision_shape (st : SlotOptimizer) (req : AppointmentRequest)
    (strategy : Strategy) (os : Option ℕ) (p : ℚ)
    (hact : strategy.action ≠ "waitlist") :
    ((AIScheduler.executeSchedulingDecision st req strategy os p).1.error = none ∧
     (AIScheduler.executeSchedulingDecision st req strategy os p).1.slot_assigned = some true ∧
     (AIScheduler.executeSchedulingDecision st req strategy os p).1.doctor_id.isSome ∧
     (AIScheduler.executeSchedulingDecision st req strategy os p).1.start_time.isSome ∧
     (AIScheduler.executeSchedulingDecision st req strategy os p).1.end_time.isSome ∧
     (AIScheduler.executeSchedulingDecision st req strategy os p).1.success = true) ∨
    ((AIScheduler.executeSchedulingDecision st req strategy os p).1.error.isSome ∧
     (AIScheduler.executeSchedulingDecision st req strategy os p).1.slot_assigned = none ∧
     (AIScheduler.executeSchedulingDecision st req strategy os p).1.doctor_id = none ∧
     (AIScheduler.executeSchedulingDecision st req strategy os p).1.start_time = none ∧
     (AIScheduler.executeSchedulingDecision st req strategy os p).1.end_time = none ∧
     (AIScheduler.executeSchedulingDecision st req strategy os p).1.success = false) := by
  unfold AIScheduler.executeSchedulingDecision
  simp only []
  split_ifs with h1 h2 h3
  · cases os with
    | none => right; exact ⟨rfl, rfl, rfl, rfl, rfl, rfl⟩
    | some sid =>
      simp only []
      cases hb : (st.scheduleAppointment (req.patient_id.getD "unknown") sid
          strategy.buffer_time).2 with
      | true => left; exact ⟨rfl, rfl, rfl, rfl, rfl, rfl⟩
      | false => right; exact ⟨rfl, rfl, rfl, rfl, rfl, rfl⟩
  · cases os with
    | none => right; exact ⟨rfl, rfl, rfl, rfl, rfl, rfl⟩
    | some sid =>
      simp only []
      cases hb : (st.scheduleAppointment (req.patient_id.getD "unknown") sid
          strategy.buffer_time).2 with
      | true => left; exact ⟨rfl, rfl, rfl, rfl, rfl, rfl⟩
      | false => right; exact ⟨rfl, rfl, rfl, rfl, rfl, rfl⟩
  · cases os with
    | none => right; exact ⟨rfl, rfl, rfl, rfl, rfl, rfl⟩
    | some sid =>
      simp only []
      cases hb : (st.scheduleAppointment (req.patient_id.getD "unknown") sid
          strategy.buffer_time).2 with
      | true => left; exact ⟨rfl, rfl, rfl, rfl, rfl, rfl⟩
      | false => right; exact ⟨rfl, rfl, rfl, rfl, rfl, rfl⟩
  · right
    exact ⟨rfl, rfl, rfl, rfl, rfl, rfl⟩

/-- C2 (amended): every result record carries the success flag and action;
on the two oracle-failure paths the record has `success = false`,
`action = "error"`, the error message, no state mutation — and none of the
risk/probability fields; on the non-exception path the record carries the
risk level and both probabilities, and either booking details or an error
string, never both. -/
theorem c2_result_record (sys : AIScheduler) (op : Except String ℚ)
    (of : Except String FullPrediction) (req : AppointmentRequest)
    (now : PyDateTime) :
    (∀ e, op = .error e →
      (AIScheduler.scheduleAppointment sys op of req now).1 = AIScheduler.errorResult e ∧
      (AIScheduler.scheduleAppointment sys op of req now).1.success = false ∧
      (AIScheduler.scheduleAppointment sys op of req now).1.action = "error" ∧
      (AIScheduler.scheduleAppointment sys op of req now).1.error = some e ∧
      (AIScheduler.scheduleAppointment sys op of req now).1.risk_level = none ∧
      (AIScheduler.scheduleAppointment sys op of req now).1.no_show_probability = none ∧
      (AIScheduler.scheduleAppointment sys op of req now).1.show_probability = none ∧
      (AIScheduler.scheduleAppointment sys op of req now).2 = sys) ∧
    (∀ p e, op = .ok p → of = .error e →
      (AIScheduler.scheduleAppointment sys op of req now).1 = AIScheduler.errorResult e ∧
      (AIScheduler.scheduleAppointment sys op of req now).1.success = false ∧
      (AIScheduler.scheduleAppointment sys op of req now).1.action = "error" ∧
      (AIScheduler.scheduleAppointment sys op of req now).1.error = some e ∧
      (AIScheduler.scheduleAppointment sys op of req now).1.risk_level = none ∧
      (AIScheduler.scheduleAppointment sys op of req now).1.no_show_probability = none ∧
      (AIScheduler.scheduleAppointment sys op of req now).1.show_probability = none ∧
      (AIScheduler.scheduleAppointment sys op of req now).2 = sys) ∧
    (∀ p f, op = .ok p → of = .ok f →
      (AIScheduler.scheduleAppointment sys op of req now).1.risk_level =
        some (assessRisk sys.risk_assessor p).value ∧
      (AIScheduler.scheduleAppointment sys op of req now).1.no_show_probability =
        some f.no_show_probability ∧
      (AIScheduler.scheduleAppointment sys op of req now).1.show_probability =
        some f.show_probability ∧
      (((AIScheduler.scheduleAppointment sys op of req now).1.error = none ∧
        (AIScheduler.scheduleAppointment sys op of req now).1.slot_assigned = some true ∧
        (AIScheduler.scheduleAppointment sys op of req now).1.doctor_id.isSome ∧
        (AIScheduler.scheduleAppointment sys op of req now).1.start_time.isSome ∧
        (AIScheduler.scheduleAppointment sys op of req now).1.end_time.isSome ∧
        (AIScheduler.scheduleAppointment sys op of req now).1.success = true) ∨
       ((AIScheduler.scheduleAppointment sys op of req now).1.error.isSome ∧
        (AIScheduler.scheduleAppointment sys op of req now).1.slot_assigned = none ∧
        (AIScheduler.scheduleAppointment sys op of req now).1.doctor_id = none ∧
        (AIScheduler.scheduleAppointment sys op of req now).1.start_time = none ∧
        (AIScheduler.scheduleAppointment sys op of req now).1.end_time = none ∧
        (AIScheduler.scheduleAppointment sys op of req now).1.success = false))) := by
  refine ⟨?_, ?_, ?_⟩
  · intro e he
    subst he
    exact ⟨rfl, rfl, rfl, rfl, rfl, rfl, rfl, rfl⟩
  · intro p e hp he
    subst hp
    subst he
    exact ⟨rfl, rfl, rfl, rfl, rfl, rfl, rfl, rfl⟩
  · intro p f hp hf
    subst hp
    subst hf
    refine ⟨rfl, rfl, rfl, ?_⟩
    exact executeDecision_shape sys.slot_optimizer req _ _ p
      (strategy_action_ne_waitlist _ _ _)

/-- Witness for C2 (amended) at a failing oracle and at a successful
medium-risk run. -/
theorem c2_witness :
    (AIScheduler.scheduleAppointment emptySystem (.error "model crash")
      (.ok fullPredMed) plainRequest ⟨0, 0⟩).1 = AIScheduler.errorResult "model crash" ∧
    (AIScheduler.scheduleAppointment emptySystem (.error "model crash")
      (.ok fullPredMed) plainRequest ⟨0, 0⟩).2 = emptySystem ∧
    (AIScheduler.scheduleAppointment oneDoctorSystem (.ok probLow)
      (.ok fullPredMed) preferredRequest ⟨0, 0⟩).1.risk_level =
      some (assessRisk oneDoctorSystem.risk_assessor probLow).value :=
  ⟨((c2_result_record emptySystem (.error "model crash") (.ok fullPredMed)
      plainRequest ⟨0, 0⟩).1 "model crash" rfl).1,
   ((c2_result_record emptySystem (.error "model crash") (.ok fullPredMed)
      plainRequest ⟨0, 0⟩).1 "model crash" rfl).2.2.2.2.2.2.2,
   ((c2_result_record oneDoctorSystem (.ok probLow) (.ok fullPredMed)
      preferredRequest ⟨0, 0⟩).2.2 probLow fullPredMed rfl rfl).1⟩

/-- C2 fails as stated: on the oracle-failure path the result record does
not contain the risk level or the probabilities (the claim asserts they are
present on every path). -/
theorem c2_counterexample :
    (AIScheduler.scheduleAppointment emptySystem (.error "boom")
      (.ok fullPredMed) plainRequest ⟨0, 0⟩).1.risk_level = none ∧
    (AIScheduler.scheduleAppointment emptySystem (.error "boom")
      (.ok fullPredMed) plainRequest ⟨0, 0⟩).1.no_show_probability = none ∧
    (AIScheduler.scheduleAppointment emptySystem (.error "boom")
      (.ok fullPredMed) plainRequest ⟨0, 0⟩).1.show_probability = none :=
  ⟨rfl, rfl, rfl⟩

/-- C1 is a code bug: `_execute_scheduling_decision` dispatches only on
`confirm`, `confirm_with_buffer`, `reschedule` and the dead string
`waitlist`, so the three remaining strategy actions all fall into the
`Unknown action` failure branch.  A high-risk patient with no free slot is
never enqueued on the waitlist; a medium-risk patient with no free slot is
never rebooked; a high-risk patient with a free preferred slot is never
booked. -/
theorem c1_unknown_action_bug :
    (AIScheduler.scheduleAppointment emptySystem (.ok probHigh)
      (.ok fullPredHigh) plainRequest ⟨0, 0⟩).1.action =
      "waitlist_high_priority" ∧
    (AIScheduler.scheduleAppointment emptySystem (.ok probHigh)
      (.ok fullPredHigh) plainRequest ⟨0, 0⟩).1.success = false ∧
    (AIScheduler.scheduleAppointment emptySystem (.ok probHigh)
      (.ok fullPredHigh) plainRequest ⟨0, 0⟩).1.error =
      some "Unknown action: waitlist_high_priority" ∧
    (AIScheduler.scheduleAppointment emptySystem (.ok probHigh)
      (.ok fullPredHigh) plainRequest ⟨0, 0⟩).2.waitlist_manager =
      WaitlistManager.init ∧
    (AIScheduler.scheduleAppointment emptySystem (.ok probMed)
      (.ok fullPredMed) plainRequest ⟨0, 0⟩).1.error =
      some "Unknown action: reschedule_optimal" ∧
    (AIScheduler.scheduleAppointment emptySystem (.ok probMed)
      (.ok fullPredMed) plainRequest ⟨0, 0⟩).1.success = false ∧
    (AIScheduler.scheduleAppointment oneDoctorSystem (.ok probHigh)
      (.ok fullPredHigh) preferredRequest ⟨0, 0⟩).1.error =
      some "Unknown action: confirm_with_extended_buffer" ∧
    (AIScheduler.scheduleAppointment oneDoctorSystem (.ok probHigh)
      (.ok fullPredHigh) preferredRequest ⟨0, 0⟩).1.success = false ∧
    (AIScheduler.scheduleAppointment oneDoctorSystem (.ok probHigh)
      (.ok fullPredHigh) preferredRequest ⟨0, 0⟩).2.slot_optimizer.slots.map
        DoctorSlot.current_capacity = [0, 0] := by
  refine ⟨by decide, by decide, by decide, by decide, by decide, by decide,
    by decide, by decide, by decide⟩

/-- Reading a slot in range yields a member of the store. -/
theorem slotAt_mem (st : SlotOptimizer) (i : ℕ) (h : i < st.slots.length) :
    st.slotAt i ∈ st.slots := by
  unfold SlotOptimizer.slotAt
  rw [List.getD_eq_getElem?_getD, List.getElem?_eq_getElem h]
  exact List.getElem_mem h

/-- A slot read from the store satisfies the bounded invariant: either it
is a member, or (out of range) it is the default slot, which satisfies it
trivially. -/
theorem slotAt_ok (st : SlotOptimizer)
    (h : ∀ s ∈ st.slots, SlotInv s ∧ s.max_capacity ≤ 4) (i : ℕ) :
    SlotInv (st.slotAt i) ∧ (st.slotAt i).max_capacity ≤ 4 := by
  by_cases hi : i < st.slots.length
  · exact h _ (slotAt_mem st i hi)
  · unfold SlotOptimizer.slotAt
    rw [List.getD_eq_getElem?_getD, List.getElem?_eq_none (by omega)]
    exact ⟨by decide, by decide⟩

/-- Writing an invariant-respecting slot preserves the store invariant. -/
theorem setSlot_ok (st : SlotOptimizer) (i : ℕ) (v : DoctorSlot)
    (h : ∀ s ∈ st.slots, SlotInv s ∧ s.max_capacity ≤ 4)
    (hv : SlotInv v ∧ v.max_capacity ≤ 4) :
    ∀ s ∈ (st.setSlot i v).slots, SlotInv s ∧ s.max_capacity ≤ 4 := by
  intro s hs
  rcases List.mem_or_eq_of_mem_set hs with hs | hs
  · exact h s hs
  · subst hs
    exact hv

/-- `add_patient` preserves the per-slot invariant and the capacity bound. -/
theorem addPatient_ok (s : DoctorSlot) (p : String) (buf : ℤ)
    (h : SlotInv s ∧ s.max_capacity ≤ 4) :
    SlotInv (s.addPatient p buf).1 ∧ (s.addPatient p buf).1.max_capacity ≤ 4 := by
  obtain ⟨⟨hlen, hge, hle⟩, hmax⟩ := h
  unfold DoctorSlot.addPatient
  by_cases hcap : s.current_capacity < s.max_capacity
  · rw [if_pos hcap]
    refine ⟨⟨?_, ?_, ?_⟩, ?_⟩
    · show ((s.patients ++ [p]).length : ℤ) = s.current_capacity + 1
      simp only [List.length_append, List.length_cons, List.length_nil]
      omega
    · show (0 : ℤ) ≤ s.current_capacity + 1
      omega
    · show s.current_capacity + 1 ≤ s.max_capacity
      omega
    · exact hmax
  · rw [if_neg hcap]
    exact ⟨⟨hlen, hge, hle⟩, hmax⟩

/-- `remove_patient` preserves the per-slot invariant and capacity bound. -/
theorem removePatient_ok (s : DoctorSlot) (p : String)
    (h : SlotInv s ∧ s.max_capacity ≤ 4) :
    SlotInv (s.removePatient p).1 ∧ (s.removePatient p).1.max_capacity ≤ 4 := by
  obtain ⟨⟨hlen, hge, hle⟩, hmax⟩ := h
  unfold DoctorSlot.removePatient
  by_cases hp : p ∈ s.patients
  · rw [if_pos hp]
    have hpos : 0 < s.patients.length := List.length_pos_of_mem hp
    refine ⟨⟨?_, ?_, ?_⟩, ?_⟩
    · show ((s.patients.erase p).length : ℤ) = s.current_capacity - 1
      rw [List.length_erase_of_mem hp]
      omega
    · show (0 : ℤ) ≤ s.current_capacity - 1
      omega
    · show s.current_capacity - 1 ≤ s.max_capacity
      omega
    · exact hmax
  · rw [if_neg hp]
    exact ⟨⟨hlen, hge, hle⟩, hmax⟩

/-- `schedule_appointment` preserves the store invariant. -/
theorem scheduleA_ok (st : SlotOptimizer) (p : String) (sid : ℕ) (buf : ℤ)
    (h : ∀ s ∈ st.slots, SlotInv s ∧ s.max_capacity ≤ 4) :
    ∀ s ∈ (st.scheduleAppointment p sid buf).1.slots,
      SlotInv s ∧ s.max_capacity ≤ 4 := by
  unfold SlotOptimizer.scheduleAppointment
  by_cases hb : ((st.slotAt sid).addPatient p buf).2
  · rw [if_pos hb]
    exact setSlot_ok st sid _ h (addPatient_ok _ p buf (slotAt_ok st h sid))
  · rw [if_neg hb]
    exact h

/-- `reschedule_appointment` preserves the store invariant. -/
theorem rescheduleA_ok (st : SlotOptimizer) (p : String) (sid : ℕ) (buf : ℤ)
    (h : ∀ s ∈ st.slots, SlotInv s ∧ s.max_capacity ≤ 4) :
    ∀ s ∈ (st.rescheduleAppointment p sid buf).1.slots,
      SlotInv s ∧ s.max_capacity ≤ 4 := by
  unfold SlotOptimizer.rescheduleAppointment
  cases lookupA st.slot_assignments p with
  | none => exact scheduleA_ok st p sid buf h
  | some oldSid =>
    exact scheduleA_ok _ p sid buf
      (setSlot_ok st oldSid _ h (removePatient_ok _ p (slotAt_ok st h oldSid)))

/-- `cancel_appointment` preserves the store invariant. -/
theorem cancelA_ok (st : SlotOptimizer) (p : String)
    (h : ∀ s ∈ st.slots, SlotInv s ∧ s.max_capacity ≤ 4) :
    ∀ s ∈ (st.cancelAppointment p).1.slots,
      SlotInv s ∧ s.max_capacity ≤ 4 := by
  unfold SlotOptimizer.cancelAppointment
  cases lookupA st.slot_assignments p with
  | none => exact h
  | some sid =>
    exact setSlot_ok st sid _ h (removePatient_ok _ p (slotAt_ok st h sid))

/-- One merge step of `optimize_schedule` preserves the store invariant
(this is where the `max_capacity ≤ 4` bound matters: the merged capacity is
`min (max_capacity + 1) 3`). -/
theorem optimizeStep_ok (st : SlotOptimizer) (ids : List ℕ) (k : ℕ)
    (h : ∀ s ∈ st.slots, SlotInv s ∧ s.max_capacity ≤ 4) :
    ∀ s ∈ (SlotOptimizer.optimizeStep st ids k).slots,
      SlotInv s ∧ s.max_capacity ≤ 4 := by
  unfold SlotOptimizer.optimizeStep
  split_ifs with hk hmerge
  · apply setSlot_ok st _ _ h
    obtain ⟨⟨hlen, hge, hle⟩, hmax⟩ := slotAt_ok st h (ids.getD (k - 1) 0)
    refine ⟨⟨?_, ?_, ?_⟩, ?_⟩
    · show ((st.slotAt (ids.getD (k - 1) 0)).patients.length : ℤ) =
        (st.slotAt (ids.getD (k - 1) 0)).current_capacity
      exact hlen
    · show (0 : ℤ) ≤ (st.slotAt (ids.getD (k - 1) 0)).current_capacity
      exact hge
    · show (st.slotAt (ids.getD (k - 1) 0)).current_capacity ≤
        min ((st.slotAt (ids.getD (k - 1) 0)).max_capacity + 1) 3
      omega
    · show min ((st.slotAt (ids.getD (k - 1) 0)).max_capacity + 1) 3 ≤ 4
      omega
  · exact h
  · exact h

/-- `foldl` preservation helper for the optimization pass. -/
theorem foldl_preserve {σ α : Type} (P : σ → Prop) (f : σ → α → σ)
    (hf : ∀ a x, P a → P (f a x)) :
    ∀ (l : List α) (acc : σ), P acc → P (l.foldl f acc) := by
  intro l
  induction l with
  | nil => intro acc h; exact h
  | cons x xs ih =>
    intro acc h
    exact ih (f acc x) (hf acc x h)

/-- `optimize_schedule` preserves the store invariant. -/
theorem optimizeSchedule_ok (st : SlotOptimizer)
    (h : ∀ s ∈ st.slots, SlotInv s ∧ s.max_capacity ≤ 4) :
    ∀ s ∈ (SlotOptimizer.optimizeSchedule st).slots,
      SlotInv s ∧ s.max_capacity ≤ 4 := by
  unfold SlotOptimizer.optimizeSchedule
  apply foldl_preserve
    (fun a => ∀ s ∈ a.slots, SlotInv s ∧ s.max_capacity ≤ 4) _ _ _ st h
  intro a x ha
  apply foldl_preserve
    (fun a2 => ∀ s ∈ a2.slots, SlotInv s ∧ s.max_capacity ≤ 4) _ _ _ a ha
  intro a2 k ha2
  exact optimizeStep_ok a2 x.2 k ha2

/-- C3 (amended): the slot invariant `len(patients) = current_capacity ∈
[0, max_capacity]` is preserved by every sequence of `schedule`,
`reschedule`, `cancel` and `optimize` operations, provided every slot's
`max_capacity` is at most 4 (the bound also being preserved); the
`optimize_schedule` merge, which caps merged capacity at 3, can otherwise
undercut an existing occupancy. -/
theorem c3_invariant_preserved (st : SlotOptimizer)
    (h : ∀ s ∈ st.slots, SlotInv s ∧ s.max_capacity ≤ 4) (ops : List SlotOp) :
    ∀ s ∈ (runOps st ops).slots, SlotInv s ∧ s.max_capacity ≤ 4 := by
  induction ops generalizing st with
  | nil => exact h
  | cons op ops ih =>
    apply ih
    cases op with
    | schedule p sid buf => exact scheduleA_ok st p sid buf h
    | reschedule p sid buf => exact rescheduleA_ok st p sid buf h
    | cancel p => exact cancelA_ok st p h
    | optimize => exact optimizeSchedule_ok st h

/-- Witness for C3 (amended) on the `max_capacity = 2` clinic. -/
theorem c3_witness :
    ((runOps smallClinic
      [.schedule "a" 0 0, .schedule "b" 0 0, .optimize, .cancel "a"]).slots.all
      (fun s => decide (SlotInv s) && decide (s.max_capacity ≤ 4))) = true := by
  rw [List.all_eq_true]
  intro s hs
  have h := c3_invariant_preserved smallClinic (by decide)
    [.schedule "a" 0 0, .schedule "b" 0 0, .optimize, .cancel "a"] s hs
  simp only [Bool.and_eq_true, decide_eq_true_eq]
  exact h

/-- C3 fails as stated: starting from registered slots with
`max_capacity = 5` (which satisfy the claimed invariant), booking four
patients into the first slot and running `optimize_schedule` leaves that
slot with `current_capacity = 4` but `max_capacity = 3`. -/
theorem c3_counterexample :
    (∀ s ∈ c3Registered.slots, SlotInv s) ∧
    ((runOps c3Registered
        [.schedule "p1" 0 0, .schedule "p2" 0 0, .schedule "p3" 0 0,
         .schedule "p4" 0 0, .optimize]).slotAt 0).current_capacity = 4 ∧
    ((runOps c3Registered
        [.schedule "p1" 0 0, .schedule "p2" 0 0, .schedule "p3" 0 0,
         .schedule "p4" 0 0, .optimize]).slotAt 0).max_capacity = 3 := by
  refine ⟨by decide, by decide, by decide⟩

/-- Reading back a slot just written (in range). -/
theorem slotAt_setSlot_self (st : SlotOptimizer) (i : ℕ) (v : DoctorSlot)
    (h : i < st.slots.length) : (st.setSlot i v).slotAt i = v := by
  unfold SlotOptimizer.setSlot SlotOptimizer.slotAt
  rw [List.getD_eq_getElem?_getD, List.getElem?_set_self' ]
  simp [List.getElem?_eq_getElem h]

/-- Writing one slot does not change another. -/
theorem slotAt_setSlot_ne (st : SlotOptimizer) (i j : ℕ) (v : DoctorSlot)
    (h : i ≠ j) : (st.setSlot i v).slotAt j = st.slotAt j := by
  unfold SlotOptimizer.setSlot SlotOptimizer.slotAt
  rw [List.getD_eq_getElem?_getD, List.getElem?_set_ne h,
    ← List.getD_eq_getElem?_getD]

/-- A patient listed in a slot forces the store index to be in range (the
out-of-range read is the default slot, whose occupant list is empty). -/
theorem mem_patients_lt_length (st : SlotOptimizer) (i : ℕ) (p : String)
    (h : p ∈ (st.slotAt i).patients) : i < st.slots.length := by
  by_contra hi
  unfold SlotOptimizer.slotAt at h
  rw [List.getD_eq_getElem?_getD, List.getElem?_eq_none (by omega)] at h
  simp at h
  cases h

/-- C10: rescheduling a tracked, booked patient to a different slot with no
spare capacity returns false, yet the patient has already been erased from
the old slot's occupant list (its occupancy decremented) while the
assignment map still points at the old slot — the failed reschedule loses
the booking and leaves a dangling assignment. -/
theorem c10_reschedule_not_atomic (st : SlotOptimizer) (p : String)
    (oldSid newSid : ℕ) (buf : ℤ)
    (hassign : lookupA st.slot_assignments p = some oldSid)
    (hmem : p ∈ (st.slotAt oldSid).patients)
    (hne : oldSid ≠ newSid)
    (hfull : ¬ (st.slotAt newSid).current_capacity <
      (st.slotAt newSid).max_capacity) :
    (st.rescheduleAppointment p newSid buf).2 = false ∧
    ((st.rescheduleAppointment p newSid buf).1.slotAt oldSid).patients =
      (st.slotAt oldSid).patients.erase p ∧
    ((st.rescheduleAppointment p newSid buf).1.slotAt oldSid).current_capacity =
      (st.slotAt oldSid).current_capacity - 1 ∧
    lookupA (st.rescheduleAppointment p newSid buf).1.slot_assignments p =
      some oldSid := by
  have hlt : oldSid < st.slots.length := mem_patients_lt_length st oldSid p hmem
  unfold SlotOptimizer.rescheduleAppointment
  rw [hassign]
  have hrm : ((st.slotAt oldSid).removePatient p).1 =
      { st.slotAt oldSid with
          patients := (st.slotAt oldSid).patients.erase p
          current_capacity := (st.slotAt oldSid).current_capacity - 1 } := by
    unfold DoctorSlot.removePatient
    rw [if_pos hmem]
  set st1 := (st.setSlot oldSid ((st.slotAt oldSid).removePatient p).1) with hst1
  have hnew1 : st1.slotAt newSid = st.slotAt newSid :=
    slotAt_setSlot_ne st oldSid newSid _ hne
  have hold1 : st1.slotAt oldSid = ((st.slotAt oldSid).removePatient p).1 :=
    slotAt_setSlot_self st oldSid _ hlt
  have hsched : st1.scheduleAppointment p newSid buf = (st1, false) := by
    unfold SlotOptimizer.scheduleAppointment DoctorSlot.addPatient
    rw [hnew1, if_neg hfull]
    simp
  rw [hsched]
  refine ⟨rfl, ?_, ?_, ?_⟩
  · rw [hold1, hrm]
  · rw [hold1, hrm]
  · show lookupA st.slot_assignments p = some oldSid
    exact hassign

/-- Witness for C10: in `c10Base`, patient `p` is booked in slot 0 and slot
1 is full; the reschedule to slot 1 fails after `p` has lost slot 0. -/
theorem c10_witness :
    (c10Base.rescheduleAppointment "p" 1 0).2 = false ∧
    ((c10Base.rescheduleAppointment "p" 1 0).1.slotAt 0).patients =
      (c10Base.slotAt 0).patients.erase "p" ∧
    ((c10Base.rescheduleAppointment "p" 1 0).1.slotAt 0).current_capacity =
      (c10Base.slotAt 0).current_capacity - 1 ∧
    lookupA (c10Base.rescheduleAppointment "p" 1 0).1.slot_assignments "p" =
      some 0 :=
  c10_reschedule_not_atomic c10Base "p" 0 1 0 (by decide) (by decide)
    (by decide) (by decide)

/-- The literal state `c3Registered` is exactly what registering doctor D1
for Monday 9:00-10:00 with 30-minute slots and capacity 5 produces. -/
theorem c3Registered_reachable :
    SlotOptimizer.init.addDoctorSchedule "D1" ⟨0, 0⟩ ⟨0, 0⟩ 9 10 30 5 =
      c3Registered := by
  have hs : SlotOptimizer.scheduleDays "D1" 0 0 ⟨0, 0⟩ 9 10 30 5 =
      specScheduleSlots "D1" 0 0 9 10 30 5 :=
    scheduleDays_eq_spec "D1" 5 9 10 30 (by norm_num) ⟨0, 0⟩ rfl 0
  unfold SlotOptimizer.addDoctorSchedule
  simp only []
  rw [hs]
  decide

/-- `firstArgmax` returns `none` exactly on the empty candidate list. -/
theorem firstArgmax_eq_none_iff (l : List (ℕ × ℚ)) :
    SlotOptimizer.firstArgmax l = none ↔ l = [] := by
  cases l with
  | nil => simp [SlotOptimizer.firstArgmax]
  | cons x xs =>
    simp only [SlotOptimizer.firstArgmax]
    cases SlotOptimizer.firstArgmax xs with
    | none => simp
    | some b =>
      by_cases h : b.2 > x.2 <;> simp [h]

/-- `firstArgmax` returns the first element of maximal score: every element
scores no higher, and every strictly earlier element scores strictly
lower. -/
theorem firstArgmax_spec (l : List (ℕ × ℚ)) (b : ℕ × ℚ)
    (h : SlotOptimizer.firstArgmax l = some b) :
    ∃ k : ℕ, ∃ hk : k < l.length, l.get ⟨k, hk⟩ = b ∧
      (∀ m, m < k → ∀ hm : m < l.length, (l.get ⟨m, hm⟩).2 < b.2) ∧
      ∀ x ∈ l, x.2 ≤ b.2 := by
  induction l generalizing b with
  | nil => simp [SlotOptimizer.firstArgmax] at h
  | cons x xs ih =>
    simp only [SlotOptimizer.firstArgmax] at h
    cases hx : SlotOptimizer.firstArgmax xs with
    | none =>
      rw [hx] at h
      change some x = some b at h
      have hxs : xs = [] := (firstArgmax_eq_none_iff xs).mp hx
      subst hxs
      simp only [Option.some.injEq] at h
      subst h
      refine ⟨0, by simp, rfl, ?_, ?_⟩
      · intro m hm
        omega
      · intro y hy
        simp at hy
        simp [hy]
    | some c =>
      rw [hx] at h
      change (if c.2 > x.2 then some c else some x) = some b at h
      obtain ⟨k', hk', hget, hbefore, hmax⟩ := ih c hx
      by_cases hcx : c.2 > x.2
      · rw [if_pos hcx] at h
        simp only [Option.some.injEq] at h
        subst h
        refine ⟨k' + 1, by simpa using hk', hget, ?_, ?_⟩
        · intro m hm hmlen
          cases m with
          | zero => exact hcx
          | succ m' =>
            exact hbefore m' (by omega) (by simpa using hmlen)
        · intro y hy
          rcases List.mem_cons.mp hy with hy | hy
          · subst hy
            exact le_of_lt hcx
          · exact hmax y hy
      · rw [if_neg hcx] at h
        simp only [Option.some.injEq] at h
        subst h
        refine ⟨0, by simp, rfl, ?_, ?_⟩
        · intro m hm
          omega
        · intro y hy
          rcases List.mem_cons.mp hy with hy | hy
          · simp [hy]
          · exact le_trans (hmax y hy) (not_lt.mp hcx)

/-- Every collected candidate is an available slot of a doctor passing the
preferred-doctor filter, paired with its computed score. -/
theorem candidateSlots_mem (st : SlotOptimizer) (pd : Option String)
    (pdate : Option PyDateTime) (pt : Option String) (risk : RiskLevel)
    (urg : ℤ) (q : ℕ × ℚ)
    (hq : q ∈ SlotOptimizer.candidateSlots st pd pdate pt risk urg) :
    ∃ p ∈ st.doctor_slots, (pd.isSome → some p.1 = pd) ∧ q.1 ∈ p.2 ∧
      (st.slotAt q.1).isAvailable = true ∧
      q.2 = SlotOptimizer.calcSlotScore (st.slotAt q.1) pdate pt risk urg := by
  unfold SlotOptimizer.candidateSlots at hq
  rcases List.mem_flatMap.mp hq with ⟨p, hp, hq2⟩
  by_cases hskip : pd.isSome ∧ some p.1 ≠ pd
  · rw [if_pos hskip] at hq2
    simp at hq2
  · rw [if_neg hskip] at hq2
    push_neg at hskip
    rcases List.mem_map.mp hq2 with ⟨i, hi, hqi⟩
    subst hqi
    have hfi := List.of_mem_filter hi
    exact ⟨p, hp, hskip, List.mem_of_mem_filter hi, by simpa using hfi, rfl⟩

/-- C5: `find_optimal_slot` returns `none` exactly when no slot under the
preferred-doctor filter has spare capacity; otherwise it returns a
candidate whose score — which equals the claimed formula — is maximal, the
first such candidate in scan order winning ties. -/
theorem c5_find_optimal_slot (st : SlotOptimizer) (pd : Option String)
    (pdate : Option PyDateTime) (pt : Option String) (risk : RiskLevel)
    (urg : ℤ) :
    (SlotOptimizer.findOptimalSlot st pd pdate pt risk urg = none ↔
      ∀ p ∈ st.doctor_slots, (pd.isSome → some p.1 = pd) →
        ∀ i ∈ p.2, (st.slotAt i).isAvailable = false) ∧
    (∀ sid, SlotOptimizer.findOptimalSlot st pd pdate pt risk urg = some sid →
      ∃ k : ℕ,
        ∃ hk : k < (SlotOptimizer.candidateSlots st pd pdate pt risk urg).length,
        ((SlotOptimizer.candidateSlots st pd pdate pt risk urg).get ⟨k, hk⟩).1 = sid ∧
        (st.slotAt sid).isAvailable = true ∧
        ((SlotOptimizer.candidateSlots st pd pdate pt risk urg).get ⟨k, hk⟩).2 =
          SlotOptimizer.calcSlotScore (st.slotAt sid) pdate pt risk urg ∧
        (∀ x ∈ SlotOptimizer.candidateSlots st pd pdate pt risk urg,
          x.2 ≤ ((SlotOptimizer.candidateSlots st pd pdate pt risk urg).get ⟨k, hk⟩).2) ∧
        (∀ m, m < k →
          ∀ hm : m < (SlotOptimizer.candidateSlots st pd pdate pt risk urg).length,
          ((SlotOptimizer.candidateSlots st pd pdate pt risk urg).get ⟨m, hm⟩).2 <
            ((SlotOptimizer.candidateSlots st pd pdate pt risk urg).get ⟨k, hk⟩).2)) ∧
    (∀ slot : DoctorSlot,
      SlotOptimizer.calcSlotScore slot pdate pt risk urg =
        specSlotScore slot pdate pt risk urg) := by
  refine ⟨?_, ?_, ?_⟩
  · unfold SlotOptimizer.findOptimalSlot
    rw [Option.map_eq_none', firstArgmax_eq_none_iff]
    unfold SlotOptimizer.candidateSlots
    rw [List.flatMap_eq_nil_iff]
    constructor
    · intro h p hp hpd i hi
      have := h p hp
      rw [if_neg (by simp only [not_and, not_not]; intro hs; exact hpd hs)] at this
      rw [List.map_eq_nil_iff, List.filter_eq_nil_iff] at this
      simpa using this i hi
    · intro h p hp
      by_cases hskip : pd.isSome ∧ some p.1 ≠ pd
      · rw [if_pos hskip]
      · rw [if_neg hskip]
        push_neg at hskip
        rw [List.map_eq_nil_iff, List.filter_eq_nil_iff]
        intro i hi
        simpa using h p hp hskip i hi
  · intro sid hsid
    unfold SlotOptimizer.findOptimalSlot at hsid
    cases hfa : SlotOptimizer.firstArgmax
        (SlotOptimizer.candidateSlots st pd pdate pt risk urg) with
    | none => rw [hfa] at hsid; simp at hsid
    | some b =>
      rw [hfa] at hsid
      simp only [Option.map_some', Option.some.injEq] at hsid
      obtain ⟨k, hk, hget, hbefore, hmax⟩ := firstArgmax_spec _ b hfa
      have hbmem : b ∈ SlotOptimizer.candidateSlots st pd pdate pt risk urg := by
        rw [← hget]
        exact List.get_mem _ _ hk
      obtain ⟨p, hp, hpd, hbi, hbav, hbscore⟩ :=
        candidateSlots_mem st pd pdate pt risk urg b hbmem
      refine ⟨k, hk, by rw [hget, hsid], by rw [← hsid]; exact hbav, ?_, ?_, ?_⟩
      · rw [hget, ← hsid]
        exact hbscore
      · intro x hx
        rw [hget]
        exact hmax x hx
      · intro m hm hmlen
        rw [hget]
        exact hbefore m hm hmlen
  · intro slot
    unfold SlotOptimizer.calcSlotScore specSlotScore
    cases pt with
    | none => simp
    | some t =>
      simp only [Option.some.injEq]
      by_cases h1 : t = "morning" ∧ 9 ≤ slot.start_time.hour ∧ slot.start_time.hour ≤ 12
      · rw [if_pos h1, if_pos (Or.inl h1)]
      · rw [if_neg h1]
        by_cases h2 : t = "afternoon" ∧ 13 ≤ slot.start_time.hour ∧ slot.start_time.hour ≤ 17
        · rw [if_pos h2, if_pos (Or.inr (Or.inl h2))]
        · rw [if_neg h2]
          by_cases h3 : t = "evening" ∧ 18 ≤ slot.start_time.hour ∧ slot.start_time.hour ≤ 20
          · rw [if_pos h3, if_pos (Or.inr (Or.inr h3))]
          · rw [if_neg h3, if_neg (by tauto)]

/-- Witness for C5: in `c3Full` the only remaining available slot is slot 1,
which the search returns; the tie-break and maximality facts follow from
the theorem. -/
theorem c5_witness :
    ∃ k : ℕ,
      ∃ hk : k < (SlotOptimizer.candidateSlots c3Full none none none .low 1).length,
      ((SlotOptimizer.candidateSlots c3Full none none none .low 1).get ⟨k, hk⟩).1 = 1 ∧
      (c3Full.slotAt 1).isAvailable = true ∧
      ((SlotOptimizer.candidateSlots c3Full none none none .low 1).get ⟨k, hk⟩).2 =
        SlotOptimizer.calcSlotScore (c3Full.slotAt 1) none none .low 1 ∧
      (∀ x ∈ SlotOptimizer.candidateSlots c3Full none none none .low 1,
        x.2 ≤ ((SlotOptimizer.candidateSlots c3Full none none none .low 1).get ⟨k, hk⟩).2) ∧
      (∀ m, m < k →
        ∀ hm : m < (SlotOptimizer.candidateSlots c3Full none none none .low 1).length,
        ((SlotOptimizer.candidateSlots c3Full none none none .low 1).get ⟨m, hm⟩).2 <
          ((SlotOptimizer.candidateSlots c3Full none none none .low 1).get ⟨k, hk⟩).2) :=
  (c5_find_optimal_slot c3Full none none none .low 1).2.1 1 (by decide)

/-- Reading back a written list position (in range). -/
theorem getD_set_self {α : Type} (l : List α) (i : ℕ) (v d : α)
    (h : i < l.length) : (l.set i v).getD i d = v := by
  simp [List.getD_eq_getElem?_getD, List.getElem?_set_self, h]

/-- Writing one list position does not change another. -/
theorem getD_set_ne {α : Type} (l : List α) (i k : ℕ) (v d : α)
    (h : i ≠ k) : (l.set i v).getD k d = l.getD k d := by
  simp [List.getD_eq_getElem?_getD, List.getElem?_set_ne h]

/-- Swapping preserves the length. -/
theorem length_swapH {α : Type} [Inhabited α] (l : List α) (i j : ℕ) :
    (swapH l i j).length = l.length := by
  unfold swapH
  split <;> simp

/-- Pointwise description of a swap (indices in range). -/
theorem getH_swapH {α : Type} [Inhabited α] (l : List α) (i j k : ℕ)
    (hi : i < l.length) (hj : j < l.length) :
    getH (swapH l i j) k =
      if k = j then getH l i else if k = i then getH l j else getH l k := by
  unfold swapH getH
  rw [if_pos ⟨hi, hj⟩]
  by_cases hkj : k = j
  · subst hkj
    rw [if_pos rfl, getD_set_self _ _ _ _ (by simpa using hj)]
  · rw [if_neg hkj, getD_set_ne _ _ _ _ _ (fun hh => hkj hh.symm)]
    by_cases hki : k = i
    · subst hki
      rw [if_pos rfl, getD_set_self _ _ _ _ hi]
    · rw [if_neg hki, getD_set_ne _ _ _ _ _ (fun hh => hki hh.symm)]

/-- The chosen child of `i` is one of its two children, is in range, and
has the largest key among the existing children. -/
theorem maxChildIdx_spec {α : Type} [Inhabited α] (κ : α → ℤ) (l : List α)
    (i : ℕ) (h : 2 * i + 1 < l.length) :
    (maxChildIdx κ l i = 2 * i + 1 ∨
      (maxChildIdx κ l i = 2 * i + 2 ∧ 2 * i + 2 < l.length)) ∧
    maxChildIdx κ l i < l.length ∧ i < maxChildIdx κ l i ∧
    (∀ j, (j = 2 * i + 1 ∨ j = 2 * i + 2) → j < l.length →
      κ (getH l j) ≤ κ (getH l (maxChildIdx κ l i))) := by
  unfold maxChildIdx
  split_ifs with hsp
  · refine ⟨Or.inr ⟨rfl, hsp.1⟩, hsp.1, by omega, ?_⟩
    intro j hj hjl
    rcases hj with hj | hj <;> subst hj
    · exact le_of_lt hsp.2
    · exact le_refl _
  · refine ⟨Or.inl rfl, h, by omega, ?_⟩
    intro j hj hjl
    rcases hj with hj | hj <;> subst hj
    · exact le_refl _
    · rcases not_and_or.mp hsp with hc | hc
      · exact absurd hjl hc
      · exact not_lt.mp hc

/-- Sifting down preserves the length. -/
theorem length_siftDownH {α : Type} [Inhabited α] (κ : α → ℤ) :
    ∀ (n : ℕ) (l : List α) (i : ℕ), l.length - i ≤ n →
      (siftDownH κ l i).length = l.length := by
  intro n
  induction n with
  | zero =>
    intro l i h
    rw [siftDownH.eq_def, dif_neg (by omega)]
  | succ n ih =>
    intro l i h
    rw [siftDownH.eq_def]
    by_cases hc : 2 * i + 1 < l.length
    · rw [dif_pos hc]
      obtain ⟨hcc, hclen, hci, hcmax⟩ := maxChildIdx_spec κ l i hc
      split_ifs with hlt
      · rw [ih (swapH l i (maxChildIdx κ l i)) (maxChildIdx κ l i)
          (by rw [length_swapH]; omega), length_swapH]
      · rfl
    · rw [dif_neg hc]

/-- The generalized sift-down contract (ref layout: the hole `i` may be
unordered with respect to its children, everything with parent index at
least `s` other than the hole is ordered, and the hole's children fit
below the hole's parent when the hole is not the start): sifting down
restores heap order from `s`. -/
theorem siftDownH_spec {α : Type} [Inhabited α] (κ : α → ℤ) :
    ∀ (n : ℕ) (l : List α) (i s : ℕ), l.length - i ≤ n →
      s ≤ i →
      (∀ j, 0 < j → j < l.length → s ≤ (j - 1) / 2 → (j - 1) / 2 ≠ i →
        κ (getH l j) ≤ κ (getH l ((j - 1) / 2))) →
      (s < i → ∀ j, 0 < j → j < l.length → (j - 1) / 2 = i →
        κ (getH l j) ≤ κ (getH l ((i - 1) / 2))) →
      HeapFromH κ (siftDownH κ l i) s := by
  intro n
  induction n with
  | zero =>
    intro l i s hn hsi h2 h3
    rw [siftDownH.eq_def, dif_neg (by omega)]
    intro j hj hjl hsj
    by_cases hpar : (j - 1) / 2 = i
    · omega
    · exact h2 j hj hjl hsj hpar
  | succ n ih =>
    intro l i s hn hsi h2 h3
    rw [siftDownH.eq_def]
    by_cases hc : 2 * i + 1 < l.length
    · rw [dif_pos hc]
      obtain ⟨hcc, hclen, hci, hcmax⟩ := maxChildIdx_spec κ l i hc
      have hil : i < l.length := by omega
      split_ifs with hlt
      · apply ih (swapH l i (maxChildIdx κ l i)) (maxChildIdx κ l i) s
          (by rw [length_swapH]; omega) (by omega)
        · intro j hj hjl hsj hpj
          rw [length_swapH] at hjl
          rw [getH_swapH l i (maxChildIdx κ l i) j hil hclen,
            getH_swapH l i (maxChildIdx κ l i) ((j - 1) / 2) hil hclen]
          by_cases hpari : (j - 1) / 2 = i
          · rw [hpari, if_neg (show ¬ i = maxChildIdx κ l i by omega),
              if_pos rfl]
            by_cases hjc : j = maxChildIdx κ l i
            · rw [if_pos hjc]
              exact le_of_lt hlt
            · rw [if_neg hjc, if_neg (show ¬ j = i by omega)]
              exact hcmax j (by omega) hjl
          · rw [if_neg (show ¬ (j - 1) / 2 = maxChildIdx κ l i from hpj),
              if_neg (show ¬ (j - 1) / 2 = i from hpari)]
            by_cases hji : j = i
            · rw [if_neg (show ¬ j = maxChildIdx κ l i by omega), if_pos hji]
              have hpeq : (j - 1) / 2 = (i - 1) / 2 := by omega
              rw [hpeq]
              exact h3 (by omega) (maxChildIdx κ l i) (by omega) hclen (by omega)
            · rw [if_neg (show ¬ j = maxChildIdx κ l i by omega), if_neg hji]
              exact h2 j hj hjl hsj hpari
        · intro hsc j hj hjl hpj
          rw [length_swapH] at hjl
          rw [getH_swapH l i (maxChildIdx κ l i) j hil hclen,
            getH_swapH l i (maxChildIdx κ l i)
              ((maxChildIdx κ l i - 1) / 2) hil hclen]
          rw [if_neg (show ¬ j = maxChildIdx κ l i by omega),
            if_neg (show ¬ j = i by omega),
            if_neg (show ¬ (maxChildIdx κ l i - 1) / 2 = maxChildIdx κ l i by
              omega),
            if_pos (show (maxChildIdx κ l i - 1) / 2 = i by omega)]
          rw [← hpj]
          exact h2 j hj hjl (by omega) (by omega)
      · intro j hj hjl hsj
        by_cases hpari : (j - 1) / 2 = i
        · rw [hpari]
          exact le_trans (hcmax j (by omega) hjl) (not_lt.mp hlt)
        · exact h2 j hj hjl hsj hpari
    · rw [dif_neg hc]
      intro j hj hjl hsj
      by_cases hpar : (j - 1) / 2 = i
      · omega
      · exact h2 j hj hjl hsj hpar

/-- In a heap-ordered list the root carries the maximal key. -/
theorem heapFrom_root_max {α : Type} [Inhabited α] (κ : α → ℤ) (l : List α)
    (h : HeapFromH κ l 0) : ∀ j, j < l.length → κ (getH l j) ≤ κ (getH l 0) := by
  intro j
  induction j using Nat.strong_induction_on with
  | _ j ih =>
    intro hj
    rcases Nat.eq_zero_or_pos j with h0 | hpos
    · subst h0
      exact le_refl _
    · exact le_trans (h j hpos hj (Nat.zero_le _))
        (ih ((j - 1) / 2) (by omega) (by omega))

/-- The Floyd pass preserves the length. -/
theorem length_heapifyAuxH {α : Type} [Inhabited α] (κ : α → ℤ) :
    ∀ (k : ℕ) (l : List α), (heapifyAuxH κ l k).length = l.length := by
  intro k
  induction k with
  | zero => intro l; rfl
  | succ k ih =>
    intro l
    show (heapifyAuxH κ (siftDownH κ l k) k).length = l.length
    rw [ih, length_siftDownH κ (l.length - k) l k le_rfl]

/-- The Floyd pass turns heap order above `k` into full heap order. -/
theorem heapifyAuxH_heapFrom {α : Type} [Inhabited α] (κ : α → ℤ) :
    ∀ (k : ℕ) (l : List α), HeapFromH κ l k →
      HeapFromH κ (heapifyAuxH κ l k) 0 := by
  intro k
  induction k with
  | zero => intro l h; exact h
  | succ k ih =>
    intro l h
    show HeapFromH κ (heapifyAuxH κ (siftDownH κ l k) k) 0
    apply ih
    apply siftDownH_spec κ (l.length - k) l k k le_rfl le_rfl
    · intro j hj hjl hsj hne
      exact h j hj hjl (by omega)
    · intro hkk
      omega

/-- `heapify` preserves the length. -/
theorem length_heapifyH {α : Type} [Inhabited α] (κ : α → ℤ) (l : List α) :
    (heapifyH κ l).length = l.length :=
  length_heapifyAuxH κ (l.length / 2) l

/-- `heapify` establishes the heap order from any list. -/
theorem heapifyH_heapFrom {α : Type} [Inhabited α] (κ : α → ℤ) (l : List α) :
    HeapFromH κ (heapifyH κ l) 0 := by
  apply heapifyAuxH_heapFrom
  intro j hj hjl hsj
  omega

/-- `getH` agrees with `List.get` in range. -/
theorem getH_eq_get {α : Type} [Inhabited α] (l : List α) (m : ℕ)
    (hm : m < l.length) : getH l m = l.get ⟨m, hm⟩ := by
  unfold getH
  rw [List.getD_eq_getElem?_getD, List.getElem?_eq_getElem hm]
  rfl

/-- The root of a heapified list is a member carrying the maximal key. -/
theorem heapifyH_root_max {α : Type} [Inhabited α] (κ : α → ℤ) (l : List α)
    (h : l ≠ []) :
    getH (heapifyH κ l) 0 ∈ heapifyH κ l ∧
    ∀ x ∈ heapifyH κ l, κ x ≤ κ (getH (heapifyH κ l) 0) := by
  have hlen : (heapifyH κ l).length = l.length := length_heapifyH κ l
  have hpos : 0 < (heapifyH κ l).length := by
    rw [hlen]
    exact List.length_pos_of_ne_nil h
  constructor
  · rw [getH_eq_get _ 0 hpos]
    exact List.get_mem _ _ hpos
  · intro x hx
    rcases List.mem_iff_get.mp hx with ⟨m, hm⟩
    have := heapFrom_root_max κ (heapifyH κ l) (heapifyH_heapFrom κ l) m m.isLt
    rw [getH_eq_get _ m m.isLt, hm] at this
    exact this

/-- Taking one element of a non-empty list yields its head. -/
theorem take_one_of_ne_nil {α : Type} [Inhabited α] (l : List α)
    (h : l ≠ []) : l.take 1 = [getH l 0] := by
  cases l with
  | nil => exact absurd rfl h
  | cons a t => simp [getH]

/-- `_update_all_waiting_times` refreshes the entry store (producing some
intermediate manager `m`) without touching the id list, then re-heapifies
the id list by the refreshed scores. -/
theorem updateAllWaitingTimes_spec (st : WaitlistManager) (now : PyDateTime) :
    ∃ m : WaitlistManager,
      (st.updateAllWaitingTimes now).waitlist =
        heapifyH m.keyOf m.waitlist ∧
      (st.updateAllWaitingTimes now).entries = m.entries ∧
      m.waitlist = st.waitlist := by
  unfold WaitlistManager.updateAllWaitingTimes
  refine ⟨_, rfl, rfl, ?_⟩
  exact foldl_preserve (fun a => a.waitlist = st.waitlist)
    (fun acc i =>
      { acc with
          entries := acc.entries.set i
            (WaitlistEntry.updateWaitingTime now (acc.entryAt i)) })
    (fun a x ha => ha) st.waitlist st rfl

/-- C7: `get_top_patients(1)` returns exactly one entry, which is on the
resulting waitlist and whose (freshly recomputed) priority score is maximal
among all entries on the waitlist; the waitlist keeps its size. -/
theorem c7_top_patient (st : WaitlistManager) (now : PyDateTime)
    (h : st.waitlist ≠ []) :
    ∃ e, (st.getTopPatients now 1).1 = [e] ∧
      (∃ i ∈ (st.getTopPatients now 1).2.waitlist,
        (st.getTopPatients now 1).2.entryAt i = e) ∧
      (∀ i ∈ (st.getTopPatients now 1).2.waitlist,
        ((st.getTopPatients now 1).2.entryAt i).priority_score ≤
          e.priority_score) ∧
      (st.getTopPatients now 1).2.waitlist.length = st.waitlist.length := by
  obtain ⟨m, hw, hent, hmw⟩ := updateAllWaitingTimes_spec st now
  have hmne : m.waitlist ≠ [] := by rw [hmw]; exact h
  obtain ⟨hmem, hmax⟩ := heapifyH_root_max m.keyOf m.waitlist hmne
  have hlen : (heapifyH m.keyOf m.waitlist).length = m.waitlist.length :=
    length_heapifyH _ _
  have hne : heapifyH m.keyOf m.waitlist ≠ [] := by
    intro hnil
    rw [hnil] at hlen
    exact hmne (List.eq_nil_of_length_eq_zero hlen.symm)
  have hentryAt : (st.updateAllWaitingTimes now).entryAt = m.entryAt := by
    unfold WaitlistManager.entryAt
    rw [hent]
  unfold WaitlistManager.getTopPatients
  simp only []
  rw [hw, hentryAt, take_one_of_ne_nil _ hne]
  refine ⟨m.entryAt (getH (heapifyH m.keyOf m.waitlist) 0), rfl,
    ⟨getH (heapifyH m.keyOf m.waitlist) 0, hmem, rfl⟩, ?_, ?_⟩
  · intro i hi
    exact hmax i hi
  · rw [hlen, hmw]

/-- Witness for C7 on the two-entry demo waitlist. -/
theorem c7_witness :
    ∃ e, (demoWaitlist.getTopPatients ⟨3, 0⟩ 1).1 = [e] ∧
      (∃ i ∈ (demoWaitlist.getTopPatients ⟨3, 0⟩ 1).2.waitlist,
        (demoWaitlist.getTopPatients ⟨3, 0⟩ 1).2.entryAt i = e) ∧
      (∀ i ∈ (demoWaitlist.getTopPatients ⟨3, 0⟩ 1).2.waitlist,
        ((demoWaitlist.getTopPatients ⟨3, 0⟩ 1).2.entryAt i).priority_score ≤
          e.priority_score) ∧
      (demoWaitlist.getTopPatients ⟨3, 0⟩ 1).2.waitlist.length =
        demoWaitlist.waitlist.length :=
  c7_top_patient demoWaitlist ⟨3, 0⟩ (by decide)

/-- Witness for C9: a Saturday-only range (day 5) produces zero slots. -/
theorem c9_witness :
    (SlotOptimizer.init.addDoctorSchedule "D1" ⟨5, 0⟩ ⟨5, 0⟩ 9 10 30 1).slots =
      SlotOptimizer.init.slots :=
  (c9_add_doctor_schedule SlotOptimizer.init "D1" ⟨5, 0⟩ ⟨5, 0⟩ 9 10 30 1
    (by norm_num) rfl rfl).2 (by decide) rfl

end Hosp
